import Mathlib

/-!
A shallow embedding of the front-end compiler pipeline of the Bend repository
(files `src/lib.rs` and `src/term/check/unbound_pats.rs`), together with
theorems settling the specification claims about it.

The two source files orchestrate a pipeline whose individual passes live in
modules outside the embedded sources (the `term`, `net`, `hvmc` and
`diagnostics` modules).  Those passes are treated as an explicit environment
(`External` below): an arbitrary family of functions with the argument and
result shapes the orchestrator uses.  Everything the two source files define
themselves (the pass ordering, the option presets, the warning filter, the
unbound-constructor check, the runtime dispatch helpers) is embedded directly.

Rust `HashSet` iteration order is unspecified; it is modelled by an arbitrary
selection function (`Pick`).  A Rust panic (`unreachable!`) is modelled by
`Option`: `none` is a panic, `some r` is a normal return with result `r`.
-/

/-- Definition, constructor and variable names (`term::Name`). -/
abbrev Name := String

/-- Modelled from the spec: the ADT encoding choice, Scott or tagged-scott
(section 4.2 of the spec).  The defining module is outside the embedded
sources; which of the two variants is the `Default` one is immaterial to the
claims (both presets use the same default). -/
inductive AdtEncoding where
  | Scott
  | TaggedScott
deriving DecidableEq, Repr

/-- Modelled from the spec: the default ADT encoding variant. -/
def AdtEncoding.dflt : AdtEncoding := .TaggedScott

/-- Patterns (spec section 3): `Var(name?) | Num(n) | Ctr(name, args) |
Tup(a, b) | Lst(items)`, matching the variants used in `unbound_pats.rs`. -/
inductive Pattern where
  | Var (nam : Option Name)
  | Num (num : Nat)
  | Ctr (nam : Name) (args : List Pattern)
  | Tup (fst snd : Pattern)
  | Lst (els : List Pattern)
deriving Repr

/-- Terms (spec section 3), with the variants and field names used by the
match in `Term::check_unbound_pats` (`unbound_pats.rs` lines 69-102).  The
Rust field `fun` of `App` is a Lean keyword and is rendered `fn`; tags are
rendered as optional names. -/
inductive Term where
  | Var (nam : Name)
  | Lnk (nam : Name)
  | Ref (nam : Name)
  | Lam (nam : Option Name) (bod : Term)
  | Chn (nam : Name) (bod : Term)
  | App (tag : Option Name) (fn : Term) (arg : Term)
  | Dup (tag : Option Name) (fst snd : Option Name) (val : Term) (nxt : Term)
  | Sup (tag : Option Name) (fst snd : Term)
  | Tup (fst snd : Term)
  | Num (num : Nat)
  | Str (val : String)
  | Lst (els : List Term)
  | Opx (op : Name) (fst snd : Term)
  | Mat (matched : Term) (arms : List (Pattern × Term))
  | Let (pat : Pattern) (val : Term) (nxt : Term)
  | Era
  | Err
deriving Repr

/-- A rule: ordered parameter patterns plus a body term (spec section 3). -/
structure Rule where
  pats : List Pattern
  body : Term
deriving Repr

/-- A definition: its list of rules (spec section 3). -/
structure Definition where
  rules : List Rule
deriving Repr

/-- The book (spec section 3): insertion-ordered maps are modelled as
association lists.  Only the key set of `ctrs` is consulted by the embedded
checks (`book.ctrs.contains_key`). -/
structure Book where
  defs : List (Name × Definition) := []
  ctrs : List (Name × Nat) := []
  adts : List (Name × List Name) := []
  entrypoint : Option Name := none
deriving Repr

/-- `book.ctrs.contains_key nam`. -/
def Book.is_ctr (b : Book) (nam : Name) : Bool :=
  b.ctrs.any (fun kv => kv.1 == nam)

/-- The error type of `unbound_pats.rs`: `UnboundCtrErr(Name)`. -/
structure UnboundCtrErr where
  nam : Name
deriving DecidableEq, Repr

/-- Rendering of `UnboundCtrErr` (its `Display` impl, quotes omitted). -/
def UnboundCtrErr.msg (e : UnboundCtrErr) : String :=
  "Unbound constructor " ++ e.nam

/-- Warnings produced by the pipeline (spec section 6: kinds `MatchOnlyVars`
and `UnusedDefinition`), matching the variants matched in
`WarningOpts::filter`. -/
inductive Warning where
  | MatchOnlyVars (nam : Name)
  | UnusedDefinition (nam : Name)
deriving DecidableEq, Repr

/-- Modelled from the spec: the `Display` rendering of a warning (the
`diagnostics` module is outside the embedded sources). -/
def Warning.msg : Warning → String
  | .MatchOnlyVars n => "Match arms are always variables in " ++ n
  | .UnusedDefinition n => "Unused definition " ++ n

/-- `WarnState` from `src/lib.rs` lines 297-303; `Warn` is the default. -/
inductive WarnState where
  | Warn
  | Allow
  | Deny
deriving DecidableEq, BEq, Repr

/-- Modelled from the spec: the diagnostics batch (`diagnostics::Info`,
outside the embedded sources; spec section 7).  Errors accumulate into a
batch; a pass declares the start of its batch (`start_pass`), appends errors
(`take_err`), and ends with a fatal check that fails exactly when the batch
grew during the pass (`fatal`).  An error entry is the optional definition it
was reported for plus its rendered message. -/
structure Info where
  errs : List (Option Name × String) := []
  passStart : Nat := 0
  warns : List Warning := []
deriving Repr

/-- Modelled from the spec: marks the start of a pass batch. -/
def Info.start_pass (i : Info) : Info :=
  { i with passStart := i.errs.length }

/-- Modelled from the spec: absorbs a fallible check result into the batch,
tagged with the definition it was found in. -/
def Info.take_err (i : Info) (defName : Option Name) :
    Except UnboundCtrErr Unit → Info
  | .ok _ => i
  | .error e => { i with errs := i.errs ++ [(defName, e.msg)] }

/-- Modelled from the spec: whether any error at all has been recorded. -/
def Info.has_errors (i : Info) : Bool :=
  !i.errs.isEmpty

/-- Modelled from the spec: the fatal check concluding a pass; fails exactly
when the current batch is non-empty, surrendering the whole report. -/
def Info.fatal (i : Info) : Except Info Unit :=
  if i.passStart < i.errs.length then .error i else .ok ()

/-- The pass context: the book plus the diagnostics accumulator. -/
structure Ctx where
  book : Book
  info : Info

/-- `Ctx::new`. -/
def Ctx.new (book : Book) : Ctx :=
  { book := book, info := {} }

/-- An iteration-order oracle for a Rust `HashSet<Name>`: given the collected
unbound occurrences it yields the element `iter().next()` would produce. -/
def Pick := List Name → Option Name

/-- What every `HashSet` iteration order satisfies: it yields an element
exactly when the set is non-empty, and only elements of the set. -/
structure ValidPick (p : Pick) : Prop where
  isSome_iff : ∀ l : List Name, (p l).isSome = true ↔ l ≠ []
  mem : ∀ l n, p l = some n → n ∈ l

/-- One admissible iteration order: first element first. -/
def pickHead : Pick := fun l => l.head?

/-- Another admissible iteration order: last element first. -/
def pickLast : Pick := fun l => l.getLast?

mutual
/-- `Pattern::unbound_pats` (`unbound_pats.rs` lines 45-65): every used but
undeclared constructor of a possibly nested pattern.  The Rust `HashSet` is
modelled by the list of undeclared-constructor occurrences in traversal
order; its consumers only ever look at the set through an arbitrary
iteration order (`Pick`) or through emptiness, so repetitions are
unobservable. -/
def Pattern.unbound_pats (is_ctr : Name → Bool) : Pattern → List Name
  | .Ctr nam args =>
      (if is_ctr nam then [] else [nam]) ++ Pattern.unboundPatsList is_ctr args
  | .Tup fst snd =>
      Pattern.unbound_pats is_ctr fst ++ Pattern.unbound_pats is_ctr snd
  | .Lst els => Pattern.unboundPatsList is_ctr els
  | .Var _ => []
  | .Num _ => []

/-- The traversal of `Pattern::unbound_pats` over a list of sub-patterns. -/
def Pattern.unboundPatsList (is_ctr : Name → Bool) : List Pattern → List Name
  | [] => []
  | p :: ps =>
      Pattern.unbound_pats is_ctr p ++ Pattern.unboundPatsList is_ctr ps
end

/-- `Pattern::check_unbounds` (`unbound_pats.rs` lines 39-42): report some one
element of the unbound set, if any. -/
def Pattern.check_unbounds (pick : Pick) (is_ctr : Name → Bool)
    (pat : Pattern) : Except UnboundCtrErr Unit :=
  match pick (pat.unbound_pats is_ctr) with
  | some unbound => .error ⟨unbound⟩
  | none => .ok ()

/-- Error-propagating sequencing of panicking checks: a panic (`none`) or an
error short-circuits, mirroring Rust `?` inside a panicking function. -/
def pebind (x : Option (Except UnboundCtrErr Unit))
    (f : Unit → Option (Except UnboundCtrErr Unit)) :
    Option (Except UnboundCtrErr Unit) :=
  match x with
  | none => none
  | some (.error e) => some (.error e)
  | some (.ok _) => f ()

mutual
/-- `Term::check_unbound_pats` (`unbound_pats.rs` lines 69-102).  The
`Term::Lst` arm is `unreachable!()`: reaching it panics, modelled by `none`.
Children are visited in the order of the Rust code, short-circuiting at the
first error. -/
def Term.check_unbound_pats (pick : Pick) (is_ctr : Name → Bool) :
    Term → Option (Except UnboundCtrErr Unit)
  | .Let pat val nxt =>
      pebind (some (pat.check_unbounds pick is_ctr)) (fun _ =>
        pebind (Term.check_unbound_pats pick is_ctr val) (fun _ =>
          Term.check_unbound_pats pick is_ctr nxt))
  | .Mat matched arms =>
      pebind (Term.check_unbound_pats pick is_ctr matched) (fun _ =>
        Term.checkArms pick is_ctr arms)
  | .App _ fn arg =>
      pebind (Term.check_unbound_pats pick is_ctr fn) (fun _ =>
        Term.check_unbound_pats pick is_ctr arg)
  | .Tup fst snd =>
      pebind (Term.check_unbound_pats pick is_ctr fst) (fun _ =>
        Term.check_unbound_pats pick is_ctr snd)
  | .Dup _ _ _ val nxt =>
      pebind (Term.check_unbound_pats pick is_ctr val) (fun _ =>
        Term.check_unbound_pats pick is_ctr nxt)
  | .Sup _ fst snd =>
      pebind (Term.check_unbound_pats pick is_ctr fst) (fun _ =>
        Term.check_unbound_pats pick is_ctr snd)
  | .Opx _ fst snd =>
      pebind (Term.check_unbound_pats pick is_ctr fst) (fun _ =>
        Term.check_unbound_pats pick is_ctr snd)
  | .Lam _ bod => Term.check_unbound_pats pick is_ctr bod
  | .Chn _ bod => Term.check_unbound_pats pick is_ctr bod
  | .Lst _ => none
  | .Var _ => some (.ok ())
  | .Lnk _ => some (.ok ())
  | .Ref _ => some (.ok ())
  | .Num _ => some (.ok ())
  | .Str _ => some (.ok ())
  | .Era => some (.ok ())
  | .Err => some (.ok ())

/-- The `for (pat, body) in arms` loop of the `Term::Mat` arm. -/
def Term.checkArms (pick : Pick) (is_ctr : Name → Bool) :
    List (Pattern × Term) → Option (Except UnboundCtrErr Unit)
  | [] => some (.ok ())
  | (pat, body) :: rest =>
      pebind (some (pat.check_unbounds pick is_ctr)) (fun _ =>
        pebind (Term.check_unbound_pats pick is_ctr body) (fun _ =>
          Term.checkArms pick is_ctr rest))
end

/-- The inner pattern loop of `Ctx::check_unbound_pats`: absorb the result of
`pat.check_unbounds` for every rule pattern. -/
def patsGo (pick : Pick) (is_ctr : Name → Bool) (defName : Name) (i : Info)
    (pats : List Pattern) : Info :=
  pats.foldl (fun acc pat =>
    acc.take_err (some defName) (pat.check_unbounds pick is_ctr)) i

/-- The per-rule body of `Ctx::check_unbound_pats`: pattern checks, then the
rule-body check (which may panic). -/
def ruleGo (pick : Pick) (is_ctr : Name → Bool) (defName : Name) (i : Info)
    (r : Rule) : Option Info :=
  let i1 := patsGo pick is_ctr defName i r.pats
  match r.body.check_unbound_pats pick is_ctr with
  | none => none
  | some res => some (i1.take_err (some defName) res)

/-- The rule loop of `Ctx::check_unbound_pats`. -/
def rulesGo (pick : Pick) (is_ctr : Name → Bool) (defName : Name) :
    List Rule → Info → Option Info
  | [], i => some i
  | r :: rs, i =>
      match ruleGo pick is_ctr defName i r with
      | none => none
      | some i1 => rulesGo pick is_ctr defName rs i1

/-- The definition loop of `Ctx::check_unbound_pats`. -/
def defsGo (pick : Pick) (is_ctr : Name → Bool) :
    List (Name × Definition) → Info → Option Info
  | [], i => some i
  | (defName, d) :: ds, i =>
      match rulesGo pick is_ctr defName d.rules i with
      | none => none
      | some i1 => defsGo pick is_ctr ds i1

/-- `Ctx::check_unbound_pats` (`unbound_pats.rs` lines 18-35): start a batch,
collect one diagnostic per failing rule pattern and per failing rule body
across all definitions, then conclude with the fatal check. -/
def Ctx.check_unbound_pats (pick : Pick) (c : Ctx) :
    Option (Except Info Ctx) :=
  let i0 := c.info.start_pass
  match defsGo pick c.book.is_ctr c.book.defs i0 with
  | none => none
  | some i =>
      match i.fatal with
      | .error e => some (.error e)
      | .ok _ => some (.ok { c with info := i })

mutual
/-- Specification-side predicate: every constructor name appearing in this
(possibly nested) pattern is declared. -/
def Pattern.declaredB (is_ctr : Name → Bool) : Pattern → Bool
  | .Ctr nam args => is_ctr nam && Pattern.declaredListB is_ctr args
  | .Tup fst snd => Pattern.declaredB is_ctr fst && Pattern.declaredB is_ctr snd
  | .Lst els => Pattern.declaredListB is_ctr els
  | .Var _ => true
  | .Num _ => true

/-- `Pattern.declaredB` over a list of sub-patterns. -/
def Pattern.declaredListB (is_ctr : Name → Bool) : List Pattern → Bool
  | [] => true
  | p :: ps => Pattern.declaredB is_ctr p && Pattern.declaredListB is_ctr ps
end

mutual
/-- Specification-side counter: the number of occurrences of undeclared
constructor names in a pattern (each occurrence counted separately). -/
def Pattern.undeclaredOccs (is_ctr : Name → Bool) : Pattern → Nat
  | .Ctr nam args =>
      (if is_ctr nam then 0 else 1) + Pattern.undeclaredOccsList is_ctr args
  | .Tup fst snd =>
      Pattern.undeclaredOccs is_ctr fst + Pattern.undeclaredOccs is_ctr snd
  | .Lst els => Pattern.undeclaredOccsList is_ctr els
  | .Var _ => 0
  | .Num _ => 0

/-- `Pattern.undeclaredOccs` over a list of sub-patterns. -/
def Pattern.undeclaredOccsList (is_ctr : Name → Bool) : List Pattern → Nat
  | [] => 0
  | p :: ps =>
      Pattern.undeclaredOccs is_ctr p + Pattern.undeclaredOccsList is_ctr ps
end

mutual
/-- Whether a term contains a `Term::Lst` node anywhere. -/
def Term.has_lst : Term → Bool
  | .Lst _ => true
  | .Let _ val nxt => Term.has_lst val || Term.has_lst nxt
  | .Mat matched arms => Term.has_lst matched || Term.armsHaveLst arms
  | .App _ fn arg => Term.has_lst fn || Term.has_lst arg
  | .Tup fst snd => Term.has_lst fst || Term.has_lst snd
  | .Dup _ _ _ val nxt => Term.has_lst val || Term.has_lst nxt
  | .Sup _ fst snd => Term.has_lst fst || Term.has_lst snd
  | .Opx _ fst snd => Term.has_lst fst || Term.has_lst snd
  | .Lam _ bod => Term.has_lst bod
  | .Chn _ bod => Term.has_lst bod
  | .Var _ => false
  | .Lnk _ => false
  | .Ref _ => false
  | .Num _ => false
  | .Str _ => false
  | .Era => false
  | .Err => false

/-- `Term.has_lst` over match arms. -/
def Term.armsHaveLst : List (Pattern × Term) → Bool
  | [] => false
  | (_, body) :: rest => Term.has_lst body || Term.armsHaveLst rest
end

mutual
/-- Specification-side predicate: every constructor name appearing in a
`let` or `match` pattern of this term is declared.  Patterns inside a
`Term::Lst` literal are not visited, matching the reachable positions of the
checker (the checker panics at a `Lst` before looking inside it). -/
def Term.patsDeclaredB (is_ctr : Name → Bool) : Term → Bool
  | .Let pat val nxt =>
      Pattern.declaredB is_ctr pat && Term.patsDeclaredB is_ctr val &&
        Term.patsDeclaredB is_ctr nxt
  | .Mat matched arms =>
      Term.patsDeclaredB is_ctr matched && Term.armsPatsDeclaredB is_ctr arms
  | .App _ fn arg =>
      Term.patsDeclaredB is_ctr fn && Term.patsDeclaredB is_ctr arg
  | .Tup fst snd =>
      Term.patsDeclaredB is_ctr fst && Term.patsDeclaredB is_ctr snd
  | .Dup _ _ _ val nxt =>
      Term.patsDeclaredB is_ctr val && Term.patsDeclaredB is_ctr nxt
  | .Sup _ fst snd =>
      Term.patsDeclaredB is_ctr fst && Term.patsDeclaredB is_ctr snd
  | .Opx _ fst snd =>
      Term.patsDeclaredB is_ctr fst && Term.patsDeclaredB is_ctr snd
  | .Lam _ bod => Term.patsDeclaredB is_ctr bod
  | .Chn _ bod => Term.patsDeclaredB is_ctr bod
  | .Lst _ => true
  | .Var _ => true
  | .Lnk _ => true
  | .Ref _ => true
  | .Num _ => true
  | .Str _ => true
  | .Era => true
  | .Err => true

/-- `Term.patsDeclaredB` over match arms. -/
def Term.armsPatsDeclaredB (is_ctr : Name → Bool) :
    List (Pattern × Term) → Bool
  | [] => true
  | (pat, body) :: rest =>
      Pattern.declaredB is_ctr pat && Term.patsDeclaredB is_ctr body &&
        Term.armsPatsDeclaredB is_ctr rest
end

/-- No rule body in the book contains a `Term::Lst` node. -/
def Book.noLst (b : Book) : Bool :=
  b.defs.all (fun kv => kv.2.rules.all (fun r => !r.body.has_lst))

/-- Specification-side predicate for the whole book: every constructor name
appearing in a rule pattern or in a `let`/`match` pattern of a rule body is a
key of the constructor map. -/
def Book.patsDeclaredB (b : Book) : Bool :=
  b.defs.all (fun kv => kv.2.rules.all (fun r =>
    r.pats.all (fun pat => pat.declaredB b.is_ctr) &&
      r.body.patsDeclaredB b.is_ctr))

mutual
/-- Specification-side counter for the whole book: the total number of
occurrences of undeclared constructor names in rule patterns and in
`let`/`match` patterns of rule bodies (C3 speaks of one diagnostic per such
occurrence).  Occurrences in rule patterns are counted exactly; a rule body
contributes through its reachable patterns, summed the same way. -/
def Term.undeclaredOccs (is_ctr : Name → Bool) : Term → Nat
  | .Let pat val nxt =>
      Pattern.undeclaredOccs is_ctr pat + Term.undeclaredOccs is_ctr val +
        Term.undeclaredOccs is_ctr nxt
  | .Mat matched arms =>
      Term.undeclaredOccs is_ctr matched + Term.armsUndeclaredOccs is_ctr arms
  | .App _ fn arg =>
      Term.undeclaredOccs is_ctr fn + Term.undeclaredOccs is_ctr arg
  | .Tup fst snd =>
      Term.undeclaredOccs is_ctr fst + Term.undeclaredOccs is_ctr snd
  | .Dup _ _ _ val nxt =>
      Term.undeclaredOccs is_ctr val + Term.undeclaredOccs is_ctr nxt
  | .Sup _ fst snd =>
      Term.undeclaredOccs is_ctr fst + Term.undeclaredOccs is_ctr snd
  | .Opx _ fst snd =>
      Term.undeclaredOccs is_ctr fst + Term.undeclaredOccs is_ctr snd
  | .Lam _ bod => Term.undeclaredOccs is_ctr bod
  | .Chn _ bod => Term.undeclaredOccs is_ctr bod
  | .Lst _ => 0
  | .Var _ => 0
  | .Lnk _ => 0
  | .Ref _ => 0
  | .Num _ => 0
  | .Str _ => 0
  | .Era => 0
  | .Err => 0

/-- `Term.undeclaredOccs` over match arms. -/
def Term.armsUndeclaredOccs (is_ctr : Name → Bool) :
    List (Pattern × Term) → Nat
  | [] => 0
  | (pat, body) :: rest =>
      Pattern.undeclaredOccs is_ctr pat + Term.undeclaredOccs is_ctr body +
        Term.armsUndeclaredOccs is_ctr rest
end

/-- `Book`-level occurrence counter (see `Term.undeclaredOccs`). -/
def Book.undeclaredOccs (b : Book) : Nat :=
  (b.defs.map (fun kv => (kv.2.rules.map (fun r =>
    (r.pats.map (fun pat => pat.undeclaredOccs b.is_ctr)).sum +
      r.body.undeclaredOccs b.is_ctr)).sum)).sum

/-- `CompileOpts` (`src/lib.rs` lines 219-250) with its `Default` values. -/
structure CompileOpts where
  adt_encoding : AdtEncoding := AdtEncoding.dflt
  eta : Bool := false
  ref_to_ref : Bool := false
  prune : Bool := false
  pre_reduce : Bool := false
  supercombinators : Bool := false
  simplify_main : Bool := false
  pre_reduce_refs : Bool := false
  merge : Bool := false
  inline : Bool := false
deriving Repr

/-- `CompileOpts::heavy` (`src/lib.rs` lines 254-267): all optimizations. -/
def CompileOpts.heavy : CompileOpts :=
  { eta := true, ref_to_ref := true, prune := true, pre_reduce := true,
    supercombinators := true, simplify_main := true, pre_reduce_refs := true,
    merge := true, inline := true, adt_encoding := AdtEncoding.dflt }

/-- `CompileOpts::light` (`src/lib.rs` lines 270-272): only supercombinator
detachment, everything else as `Default`. -/
def CompileOpts.light : CompileOpts :=
  { supercombinators := true }

/-- `CompileOpts::lazy_mode` (`src/lib.rs` lines 275-278): clear the options
that do not work or are unnecessary in lazy mode. -/
def CompileOpts.lazy_mode (o : CompileOpts) : CompileOpts :=
  { o with supercombinators := false, pre_reduce := false }

/-- `CompileOpts::check` (`src/lib.rs` lines 282-288): whether the
strict-mode-without-supercombinators warning is printed. -/
def CompileOpts.warnsOnCheck (o : CompileOpts) (lazy_mode : Bool) : Bool :=
  !o.supercombinators && !lazy_mode

/-- `WarningOpts` (`src/lib.rs` lines 291-295) with its `Default` values. -/
structure WarningOpts where
  match_only_vars : WarnState := .Warn
  unused_defs : WarnState := .Warn
deriving Repr

/-- `WarningOpts::allow_all`. -/
def WarningOpts.allow_all : WarningOpts :=
  { match_only_vars := .Allow, unused_defs := .Allow }

/-- `WarningOpts::deny_all`. -/
def WarningOpts.deny_all : WarningOpts :=
  { match_only_vars := .Deny, unused_defs := .Deny }

/-- `WarningOpts::warn_all`. -/
def WarningOpts.warn_all : WarningOpts :=
  { match_only_vars := .Warn, unused_defs := .Warn }

/-- The per-kind state lookup inlined in `WarningOpts::filter`
(`src/lib.rs` lines 323-326). -/
def WarningOpts.warn_state (o : WarningOpts) : Warning → WarnState
  | .MatchOnlyVars _ => o.match_only_vars
  | .UnusedDefinition _ => o.unused_defs

/-- `WarningOpts::filter` (`src/lib.rs` lines 319-329). -/
def WarningOpts.filter (o : WarningOpts) (warns : List Warning)
    (ws : WarnState) : List Warning :=
  warns.filter (fun w => o.warn_state w == ws)

/-- `display_warnings` (`src/lib.rs` lines 333-346).  The first component is
the list printed to stderr (the `Warn`-filtered warnings); the second is the
returned `Result`. -/
def display_warnings (warnings : List Warning) (warning_opts : WarningOpts) :
    List Warning × Except String Unit :=
  let warns := warning_opts.filter warnings .Warn
  let denies := warning_opts.filter warnings .Deny
  (warns,
    if denies.isEmpty then .ok ()
    else
      .error ((String.intercalate "\n" (denies.map Warning.msg)) ++
        "\nCould not run the code because of the previous warnings"))

/-- The environment of everything the orchestrator calls that lives outside
the two embedded source files: the term-level passes of the `term` module,
the lowering and net-level passes, and the `hvmc` runtime.  Each field is an
arbitrary function of the shape the orchestrator uses; no behaviour is
assumed of any of them. -/
structure External where
  set_entrypoint : Ctx → Ctx
  check_shared_names : Ctx → Ctx
  encode_adts : AdtEncoding → Book → Book
  encode_builtins : Book → Book
  check_arity : Ctx → Except Info Ctx
  resolve_ctrs_in_pats : Book → Book
  check_ctrs_arities : Ctx → Except Info Ctx
  resolve_refs : Ctx → Except Info Ctx
  desugar_let_destructors : Book → Book
  desugar_implicit_match_binds : Book → Book
  check_unbound_vars : Ctx → Except Info Ctx
  linearize_matches : Ctx → Except Info Ctx
  extract_adt_matches : Ctx → Except Info Ctx
  flatten_rules : Book → Book
  DefTypes : Type
  infer_def_types : Ctx → Except Info (DefTypes × Ctx)
  check_exhaustive_patterns : DefTypes → Ctx → Except Info Ctx
  encode_pattern_matching_functions : DefTypes → AdtEncoding → Book → Book
  normalize_native_matches : Ctx → Except Info Ctx
  make_var_names_unique : Book → Book
  linearize_vars : Book → Book
  eta_reduction : Bool → Book → Book
  detach_supercombinators : Book → Book
  simplify_ref_to_ref : Ctx → Except Info Ctx
  simplify_main_ref : Book → Book
  prune : Bool → AdtEncoding → Ctx → Ctx
  inline : Book → Book
  merge_definitions : Book → Book
  Nets : Type
  HvmcNames : Type
  Labels : Type
  CoreBook : Type
  book_to_nets : Book → Nets × HvmcNames × Labels
  nets_to_hvmc : Nets → HvmcNames → Except Info CoreBook
  pre_reduce_book : CoreBook → Bool → Name → Except Info CoreBook
  prune_defs : CoreBook → Name → CoreBook
  hvmc_entrypoint : Book → Name
  RtBook : Type
  LazyNet : Type
  EagerNet : Type
  Ptr : Type
  AstNet : Type
  Rewrites : Type
  RtDef : Type
  book_to_runtime : CoreBook → RtBook
  lazy_init : Nat → Name → LazyNet
  eager_init : Nat → Name → EagerNet
  eager_expand : RtBook → EagerNet → EagerNet
  eager_reduce : RtBook → Nat → EagerNet → EagerNet × Nat
  lazy_rdex : LazyNet → List (Ptr × Ptr)
  eager_rdex : EagerNet → List (Ptr × Ptr)
  lazy_normal : RtBook → LazyNet → LazyNet
  eager_normal : RtBook → EagerNet → EagerNet
  lazy_parallel_normal : RtBook → LazyNet → LazyNet
  eager_parallel_normal : RtBook → EagerNet → EagerNet
  lazy_ast : LazyNet → AstNet
  eager_ast : EagerNet → AstNet
  lazy_def : LazyNet → RtDef
  eager_def : EagerNet → RtDef
  lazy_rewrites : LazyNet → Rewrites
  eager_rewrites : EagerNet → Rewrites
  rtdef_node_len : RtDef → Nat

/-- Panic-or-error sequencing for the pipeline: `none` is a propagating
panic, `some (.error e)` a propagating `Err` (Rust `?`). -/
def pbind (x : Option (Except Info α)) (f : α → Option (Except Info β)) :
    Option (Except Info β) :=
  match x with
  | none => none
  | some (.error e) => some (.error e)
  | some (.ok a) => f a

/-- A normal return. -/
def pok (a : α) : Option (Except Info α) :=
  some (.ok a)

/-- Lifts a non-panicking result into the panic-or-error shape. -/
def plift (x : Except Info α) : Option (Except Info α) :=
  some x

/-- Error short-circuiting for non-panicking parts of the pipeline. -/
def ebindI (x : Except Info α) (f : α → Except Info β) : Except Info β :=
  match x with
  | .error e => .error e
  | .ok a => f a

/-- `encode_pattern_matching` (`src/lib.rs` lines 89-107). -/
def encode_pattern_matching (E : External) (pick : Pick)
    (adt_encoding : AdtEncoding) (c : Ctx) : Option (Except Info Ctx) :=
  pbind (plift (E.check_arity c)) (fun c1 =>
  let c2 : Ctx := { c1 with book := E.resolve_ctrs_in_pats c1.book }
  pbind (Ctx.check_unbound_pats pick c2) (fun c3 =>
  pbind (plift (E.check_ctrs_arities c3)) (fun c4 =>
  pbind (plift (E.resolve_refs c4)) (fun c5 =>
  let c6 : Ctx := { c5 with book := E.desugar_let_destructors c5.book }
  let c7 : Ctx := { c6 with book := E.desugar_implicit_match_binds c6.book }
  pbind (plift (E.check_unbound_vars c7)) (fun c8 =>
  pbind (plift (E.linearize_matches c8)) (fun c9 =>
  pbind (plift (E.extract_adt_matches c9)) (fun c10 =>
  let c11 : Ctx := { c10 with book := E.flatten_rules c10.book }
  pbind (plift (E.infer_def_types c11)) (fun dtc =>
  pbind (plift (E.check_exhaustive_patterns dtc.1 dtc.2)) (fun c12 =>
  pok { c12 with
    book := E.encode_pattern_matching_functions dtc.1 adt_encoding
      c12.book })))))))))

/-- Lines 52-65 of `desugar_book`: entrypoint and shared-name checks, ADT
and builtin encoding, pattern-match compilation, native-match normalization,
variable-name uniqueness, linearization, eta reduction and the sanity
checks between them. -/
def desugar_front (E : External) (pick : Pick) (book : Book)
    (opts : CompileOpts) : Option (Except Info Ctx) :=
  let c0 := Ctx.new book
  let c1 := E.set_entrypoint c0
  let c2 := E.check_shared_names c1
  let c3 : Ctx := { c2 with book := E.encode_adts opts.adt_encoding c2.book }
  let c4 : Ctx := { c3 with book := E.encode_builtins c3.book }
  pbind (encode_pattern_matching E pick opts.adt_encoding c4) (fun c5 =>
  pbind (plift (E.check_unbound_vars c5)) (fun c6 =>
  pbind (plift (E.normalize_native_matches c6)) (fun c7 =>
  pbind (plift (E.check_unbound_vars c7)) (fun c8 =>
  let c9 : Ctx := { c8 with book := E.make_var_names_unique c8.book }
  let c10 : Ctx := { c9 with book := E.linearize_vars c9.book }
  let c11 : Ctx := { c10 with book := E.eta_reduction opts.eta c10.book }
  pbind (plift (E.check_unbound_vars c11)) (fun c12 =>
  pok c12)))))

/-- `desugar_book` (`src/lib.rs` lines 51-87): the front passes, then the
optimizer tail in source order — supercombinator detachment, ref-to-ref
simplification, main simplification, pruning, inlining, merging — then the
final error gate. -/
def desugar_book (E : External) (pick : Pick) (book : Book)
    (opts : CompileOpts) : Option (Except Info (Book × List Warning)) :=
  pbind (desugar_front E pick book opts) (fun c =>
  let c1 :=
    if opts.supercombinators then
      { c with book := E.detach_supercombinators c.book }
    else c
  plift (ebindI
    (if opts.ref_to_ref then E.simplify_ref_to_ref c1 else .ok c1) (fun c2 =>
  let c3 :=
    if opts.simplify_main then
      { c2 with book := E.simplify_main_ref c2.book }
    else c2
  let c4 := E.prune opts.prune opts.adt_encoding c3
  let c5 := if opts.inline then { c4 with book := E.inline c4.book } else c4
  let c6 :=
    if opts.merge then { c5 with book := E.merge_definitions c5.book } else c5
  if c6.info.has_errors then .error c6.info
  else .ok (c6.book, c6.info.warns))))

/-- One step of the optimizer tail of `desugar_book`, named so the pass
order can be quantified over. -/
inductive OptPass where
  | detach
  | refToRef
  | simplifyMain
  | pruneDefs
  | inlineDefs
  | mergeDefs
deriving DecidableEq, Repr

/-- The optimizer step a name denotes, option-gated exactly as in
`desugar_book`. -/
def applyOptPass (E : External) (opts : CompileOpts) :
    OptPass → Ctx → Except Info Ctx
  | .detach, c =>
      .ok (if opts.supercombinators then
        { c with book := E.detach_supercombinators c.book } else c)
  | .refToRef, c =>
      if opts.ref_to_ref then E.simplify_ref_to_ref c else .ok c
  | .simplifyMain, c =>
      .ok (if opts.simplify_main then
        { c with book := E.simplify_main_ref c.book } else c)
  | .pruneDefs, c => .ok (E.prune opts.prune opts.adt_encoding c)
  | .inlineDefs, c =>
      .ok (if opts.inline then { c with book := E.inline c.book } else c)
  | .mergeDefs, c =>
      .ok (if opts.merge then
        { c with book := E.merge_definitions c.book } else c)

/-- Runs a list of optimizer steps in order. -/
def applyOptPasses (E : External) (opts : CompileOpts) :
    List OptPass → Ctx → Except Info Ctx
  | [], c => .ok c
  | p :: ps, c => ebindI (applyOptPass E opts p c) (applyOptPasses E opts ps)

/-- The optimizer order of the source (`src/lib.rs` lines 67-84): pruning
after detachment, ref-to-ref and main simplification, before inlining and
merging. -/
def sourceOptOrder : List OptPass :=
  [.detach, .refToRef, .simplifyMain, .pruneDefs, .inlineDefs, .mergeDefs]

/-- The optimizer order asserted by the claim: pruning last. -/
def pruneLastOptOrder : List OptPass :=
  [.detach, .refToRef, .simplifyMain, .inlineDefs, .mergeDefs, .pruneDefs]

/-- The reference pipeline of claim C2: the same front, then the optimizer
steps in the given order, then the final error gate. -/
def desugar_book_with (E : External) (pick : Pick) (book : Book)
    (opts : CompileOpts) (order : List OptPass) :
    Option (Except Info (Book × List Warning)) :=
  pbind (desugar_front E pick book opts) (fun c =>
  plift (ebindI (applyOptPasses E opts order c) (fun c1 =>
  if c1.info.has_errors then .error c1.info
  else .ok (c1.book, c1.info.warns))))

/-- `CompileResult` (`src/lib.rs` lines 348-354). -/
structure CompileResult (E : External) where
  book : Book
  warns : List Warning
  core_book : E.CoreBook
  hvmc_names : E.HvmcNames
  labels : E.Labels

/-- `compile_book` (`src/lib.rs` lines 37-49): desugar, lower to nets,
convert to the core book, then the optional net-level pre-reduce and prune
passes. -/
def compile_book (E : External) (pick : Pick) (book : Book)
    (opts : CompileOpts) : Option (Except Info (CompileResult E)) :=
  pbind (desugar_book E pick book opts) (fun bw =>
  let nhl := E.book_to_nets bw.1
  pbind (plift (E.nets_to_hvmc nhl.1 nhl.2.1)) (fun core0 =>
  pbind
    (if opts.pre_reduce then
      plift (E.pre_reduce_book core0 opts.pre_reduce_refs
        (E.hvmc_entrypoint bw.1))
    else pok core0) (fun core1 =>
  let core2 :=
    if opts.prune then E.prune_defs core1 (E.hvmc_entrypoint bw.1) else core1
  pok { book := bw.1, warns := bw.2, core_book := core2,
        hvmc_names := nhl.2.1, labels := nhl.2.2 })))

/-- `check_book` (`src/lib.rs` lines 30-35): a full compile with the light
preset, discarding the result. -/
def check_book (E : External) (pick : Pick) (book : Book) :
    Option (Except Info Unit) :=
  pbind (compile_book E pick book CompileOpts.light) (fun _ => pok ())

/-- `RunOpts` (`src/lib.rs` lines 190-196) with its `Default` values. -/
structure RunOpts where
  single_core : Bool := false
  debug : Bool := false
  linear : Bool := false
  lazy_mode : Bool := false
deriving Repr

/-- `RunOpts::lazy` (`src/lib.rs` lines 199-201). -/
def RunOpts.lazy : RunOpts :=
  { lazy_mode := true, single_core := true }

/-- `RunOpts::debug_hook` (`src/lib.rs` lines 203-216) installs a hook
exactly when `debug` is set; the hook only prints, so only its presence is
modelled. -/
def RunOpts.debug_hook_present (o : RunOpts) : Bool :=
  o.debug

/-- The `hvmc::run::Net` enum: a lazy or an eager runtime net. -/
inductive RtNet (L Ea : Type) where
  | Lazy (net : L)
  | Eager (net : Ea)

/-- The `Init` impl for `hvmc::run::Net` (`src/lib.rs` lines 140-155): boot
a lazy or an eager net on the entrypoint according to the flag. -/
def RtNet.init (E : External) (size : Nat) (lazy : Bool) (entrypoint : Name) :
    RtNet E.LazyNet E.EagerNet :=
  if lazy then .Lazy (E.lazy_init size entrypoint)
  else .Eager (E.eager_init size entrypoint)

/-- `expand` (`src/lib.rs` lines 384-389): defined on eager nets only; the
lazy arm is `unreachable!()`, a panic. -/
def expand (E : External) (net : RtNet E.LazyNet E.EagerNet)
    (book : E.RtBook) : Option (RtNet E.LazyNet E.EagerNet) :=
  match net with
  | .Eager s => some (.Eager (E.eager_expand book s))
  | _ => none

/-- `reduce` (`src/lib.rs` lines 391-396): defined on eager nets only; the
lazy arm is `unreachable!()`, a panic. -/
def reduce (E : External) (net : RtNet E.LazyNet E.EagerNet)
    (book : E.RtBook) (limit : Nat) :
    Option (RtNet E.LazyNet E.EagerNet × Nat) :=
  match net with
  | .Eager s =>
      let r := E.eager_reduce book limit s
      some (.Eager r.1, r.2)
  | _ => none

/-- `rdex` (`src/lib.rs` lines 398-403): the redex list of either variant. -/
def rdex (E : External) (net : RtNet E.LazyNet E.EagerNet) :
    List (E.Ptr × E.Ptr) :=
  match net with
  | .Lazy s => E.lazy_rdex s
  | .Eager s => E.eager_rdex s

/-- `net_from_runtime` (`src/lib.rs` lines 405-410). -/
def net_from_runtime (E : External) (net : RtNet E.LazyNet E.EagerNet) :
    E.AstNet :=
  match net with
  | .Lazy s => E.lazy_ast s
  | .Eager s => E.eager_ast s

/-- `runtime_net_to_runtime_def` (`src/lib.rs` lines 419-424). -/
def runtime_net_to_runtime_def (E : External)
    (net : RtNet E.LazyNet E.EagerNet) : E.RtDef :=
  match net with
  | .Lazy s => E.lazy_def s
  | .Eager s => E.eager_def s

/-- `Net::normal` of the `hvmc` crate, dispatching on the variant. -/
def netNormal (E : External) (book : E.RtBook)
    (net : RtNet E.LazyNet E.EagerNet) : RtNet E.LazyNet E.EagerNet :=
  match net with
  | .Lazy s => .Lazy (E.lazy_normal book s)
  | .Eager s => .Eager (E.eager_normal book s)

/-- `Net::parallel_normal` of the `hvmc` crate, dispatching on the variant. -/
def netParallelNormal (E : External) (book : E.RtBook)
    (net : RtNet E.LazyNet E.EagerNet) : RtNet E.LazyNet E.EagerNet :=
  match net with
  | .Lazy s => .Lazy (E.lazy_parallel_normal book s)
  | .Eager s => .Eager (E.eager_parallel_normal book s)

/-- `Net::get_rewrites` of the `hvmc` crate, dispatching on the variant. -/
def netRewrites (E : External) (net : RtNet E.LazyNet E.EagerNet) :
    E.Rewrites :=
  match net with
  | .Lazy s => E.lazy_rewrites s
  | .Eager s => E.eager_rewrites s

/-- `RunStats` (`src/lib.rs` lines 378-382).  The wall-clock `run_time`
field (an `f64` measured with `Instant::now`) is not embeddable and is
omitted. -/
structure RunStats (E : External) where
  rewrites : E.Rewrites
  used : Nat

/-- The debug loop of `run_compiled` (`src/lib.rs` lines 171-175), entered
after the initial `expand`.  The Rust loop is unbounded; `fuel` bounds the
embedding, and `none` covers both a panic inside the loop and fuel
exhaustion (the hook itself only prints and is not modelled). -/
def debugLoop (E : External) (rt_book : E.RtBook) :
    Nat → RtNet E.LazyNet E.EagerNet →
    Option (RtNet E.LazyNet E.EagerNet)
  | 0, _ => none
  | fuel + 1, root =>
    if (rdex E root).isEmpty then some root
    else
      match reduce E root rt_book 1 with
      | none => none
      | some r1 =>
          match expand E r1.1 rt_book with
          | none => none
          | some r2 => debugLoop E rt_book fuel r2

/-- `run_compiled` (`src/lib.rs` lines 157-188): boot the runtime net, run
the debug loop when a hook is present (otherwise normalize on one core or in
parallel), then read off the final net and statistics. -/
def run_compiled (E : External) (fuel : Nat) (book : E.CoreBook)
    (mem_size : Nat) (run_opts : RunOpts) (hook_present : Bool)
    (entrypoint : Name) : Option (E.AstNet × RunStats E) :=
  let runtime_book := E.book_to_runtime book
  let root0 := RtNet.init E mem_size run_opts.lazy_mode entrypoint
  let rootRes :=
    if hook_present then
      match expand E root0 runtime_book with
      | none => none
      | some r => debugLoop E runtime_book fuel r
    else if run_opts.single_core then some (netNormal E runtime_book root0)
    else some (netParallelNormal E runtime_book root0)
  match rootRes with
  | none => none
  | some root =>
      some (net_from_runtime E root,
        { rewrites := netRewrites E root,
          used := E.rtdef_node_len (runtime_net_to_runtime_def E root) })

/-- A concrete instantiation of the pass environment: unit-valued external
types and identity-like passes.  Used to instantiate universally quantified
theorems on closed inputs and to witness that the pass-ordering claims must
hold for every environment if they hold at all. -/
def trivExternal : External where
  set_entrypoint := id
  check_shared_names := id
  encode_adts := fun _ b => b
  encode_builtins := id
  check_arity := fun c => .ok c
  resolve_ctrs_in_pats := id
  check_ctrs_arities := fun c => .ok c
  resolve_refs := fun c => .ok c
  desugar_let_destructors := id
  desugar_implicit_match_binds := id
  check_unbound_vars := fun c => .ok c
  linearize_matches := fun c => .ok c
  extract_adt_matches := fun c => .ok c
  flatten_rules := id
  DefTypes := Unit
  infer_def_types := fun c => .ok ((), c)
  check_exhaustive_patterns := fun _ c => .ok c
  encode_pattern_matching_functions := fun _ _ b => b
  normalize_native_matches := fun c => .ok c
  make_var_names_unique := id
  linearize_vars := id
  eta_reduction := fun _ b => b
  detach_supercombinators := id
  simplify_ref_to_ref := fun c => .ok c
  simplify_main_ref := id
  prune := fun _ _ c => c
  inline := id
  merge_definitions := id
  Nets := Unit
  HvmcNames := Unit
  Labels := Unit
  CoreBook := Unit
  book_to_nets := fun _ => ((), (), ())
  nets_to_hvmc := fun _ _ => .ok ()
  pre_reduce_book := fun c _ _ => .ok c
  prune_defs := fun c _ => c
  hvmc_entrypoint := fun _ => "main"
  RtBook := Unit
  LazyNet := Unit
  EagerNet := Unit
  Ptr := Unit
  AstNet := Unit
  Rewrites := Unit
  RtDef := Unit
  book_to_runtime := fun _ => ()
  lazy_init := fun _ _ => ()
  eager_init := fun _ _ => ()
  eager_expand := fun _ s => s
  eager_reduce := fun _ _ s => (s, 0)
  lazy_rdex := fun _ => []
  eager_rdex := fun _ => []
  lazy_normal := fun _ s => s
  eager_normal := fun _ s => s
  lazy_parallel_normal := fun _ s => s
  eager_parallel_normal := fun _ s => s
  lazy_ast := fun _ => ()
  eager_ast := fun _ => ()
  lazy_def := fun _ => ()
  eager_def := fun _ => ()
  lazy_rewrites := fun _ => ()
  eager_rewrites := fun _ => ()
  rtdef_node_len := fun _ => 0

/-- An environment whose inliner adds one definition and whose term-level
pruner (when its flag is set) clears the definition map: a concrete witness
that the pruning and inlining steps of the optimizer tail do not commute. -/
def cexC2External : External :=
  { trivExternal with
    inline := fun b => { b with defs := b.defs ++ [("gen", { rules := [] })] }
    prune := fun flag _ c =>
      if flag then { c with book := { c.book with defs := [] } } else c }

/-- Options enabling exactly the pruning and inlining steps. -/
def cexC2Opts : CompileOpts :=
  { prune := true, inline := true }

/-- A book whose single rule pattern holds two distinct occurrences of
undeclared constructors (`A` applied to `B`, neither declared). -/
def unboundBook : Book :=
  { defs := [("f", { rules := [{ pats := [.Ctr "A" [.Ctr "B" []]],
                                 body := .Era }] })] }

/-- A book whose single rule body is a bare list literal (no constructor
patterns anywhere, so every pattern is vacuously declared). -/
def lstBook : Book :=
  { defs := [("f", { rules := [{ pats := [], body := .Lst [] }] })] }

/-- A term holding a list literal behind an undeclared constructor pattern:
the pattern check errors out before the traversal can reach the `Lst`. -/
def letLstTerm : Term :=
  .Let (.Ctr "Z" []) (.Lst []) .Era

/-- The number of definitions in a successful desugar result. -/
def desugarDefsLen : Option (Except Info (Book × List Warning)) → Nat
  | some (.ok bw) => bw.1.defs.length
  | _ => 0

/-- The error batch of a failed compile over the trivial environment. -/
def compileErrs (r : Option (Except Info (CompileResult trivExternal))) :
    List (Option Name × String) :=
  match r with
  | some (.error i) => i.errs
  | _ => []

/-- The number of diagnostics the unbound-constructor pass added to its
batch. -/
def diagCount : Option (Except Info Ctx) → Nat
  | some (.error i) => i.errs.length - i.passStart
  | some (.ok c) => c.info.errs.length - c.info.passStart
  | none => 0

/-- Agreement of two panic-or-error results up to the payload of the error
report: both panic, or both fail, or both succeed with equal values. -/
def exAgree :
    Option (Except UnboundCtrErr Unit) → Option (Except UnboundCtrErr Unit) →
    Prop
  | none, none => True
  | some (.error _), some (.error _) => True
  | some (.ok _), some (.ok _) => True
  | _, _ => False

/-- Agreement of two pipeline results up to the contents of the error
report: both panic, or both fail, or both succeed with equal results. -/
def compileAgree {α : Type} :
    Option (Except Info α) → Option (Except Info α) → Prop
  | none, none => True
  | some (.error _), some (.error _) => True
  | some (.ok a), some (.ok b) => a = b
  | _, _ => False

/-- Two diagnostics accumulators extend a common base by batches of equal
length (and agree entirely when nothing was appended). -/
def infoDelta (base i1 i2 : Info) : Prop :=
  ∃ e1 e2 : List (Option Name × String),
    i1 = { base with errs := base.errs ++ e1 } ∧
    i2 = { base with errs := base.errs ++ e2 } ∧
    e1.length = e2.length

/-- `infoDelta` lifted to possibly-panicking accumulators. -/
def optInfoDelta (base : Info) : Option Info → Option Info → Prop
  | none, none => True
  | some i1, some i2 => infoDelta base i1 i2
  | _, _ => False

/-- The number of diagnostics `Ctx::check_unbound_pats` produces for one
rule: one per rule pattern containing at least one undeclared constructor,
plus one for the rule body if its checked patterns contain one. -/
def Rule.expectedDiags (is_ctr : Name → Bool) (r : Rule) : Nat :=
  r.pats.countP (fun pat => !(Pattern.declaredB is_ctr pat)) +
    (if r.body.patsDeclaredB is_ctr then 0 else 1)

/-- `Rule.expectedDiags` summed over every rule of every definition. -/
def Book.expectedDiags (b : Book) : Nat :=
  (b.defs.map (fun kv =>
    (kv.2.rules.map (Rule.expectedDiags b.is_ctr)).sum)).sum

theorem validPick_pickHead : ValidPick pickHead := by
  constructor
  · intro l
    cases l <;> simp [pickHead]
  · intro l n h
    cases l with
    | nil => simp [pickHead] at h
    | cons a t =>
        simp [pickHead] at h
        simp [h]

theorem validPick_pickLast : ValidPick pickLast := by
  constructor
  · intro l
    induction l with
    | nil => simp [pickLast]
    | cons a t ih =>
        cases t with
        | nil => simp [pickLast]
        | cons b t2 =>
            simp only [pickLast, List.getLast?_cons_cons] at ih ⊢
            simp only [ih]
            simp
  · intro l n h
    induction l with
    | nil => simp [pickLast] at h
    | cons a t ih =>
        cases t with
        | nil =>
            simp [pickLast] at h
            simp [h]
        | cons b t2 =>
            rw [show pickLast (a :: b :: t2) = pickLast (b :: t2) from
              List.getLast?_cons_cons] at h
            exact List.mem_cons_of_mem a (ih h)

/-- C7: `CompileOpts::light()` enables only the supercombinators option
(every other boolean option `false`, default ADT encoding), and
`CompileOpts::heavy()` enables every optimization option. -/
theorem claim_c7_presets :
    CompileOpts.light.supercombinators = true ∧
    CompileOpts.light.eta = false ∧
    CompileOpts.light.ref_to_ref = false ∧
    CompileOpts.light.prune = false ∧
    CompileOpts.light.pre_reduce = false ∧
    CompileOpts.light.simplify_main = false ∧
    CompileOpts.light.pre_reduce_refs = false ∧
    CompileOpts.light.merge = false ∧
    CompileOpts.light.inline = false ∧
    CompileOpts.light.adt_encoding = ({} : CompileOpts).adt_encoding ∧
    CompileOpts.heavy.eta = true ∧
    CompileOpts.heavy.ref_to_ref = true ∧
    CompileOpts.heavy.prune = true ∧
    CompileOpts.heavy.pre_reduce = true ∧
    CompileOpts.heavy.supercombinators = true ∧
    CompileOpts.heavy.simplify_main = true ∧
    CompileOpts.heavy.pre_reduce_refs = true ∧
    CompileOpts.heavy.merge = true ∧
    CompileOpts.heavy.inline = true ∧
    CompileOpts.heavy.adt_encoding = ({} : CompileOpts).adt_encoding := by
  decide

theorem warnState_beq_iff (a b : WarnState) : (a == b) = true ↔ a = b := by
  cases a <;> cases b <;> simp <;> rfl

theorem mem_filter_warn_state (o : WarningOpts) (warns : List Warning)
    (ws : WarnState) (w : Warning) :
    w ∈ o.filter warns ws ↔ w ∈ warns ∧ o.warn_state w = ws := by
  simp [WarningOpts.filter, List.mem_filter, warnState_beq_iff]

/-- C6: `display_warnings` returns `Err` iff some produced warning has its
kind configured as `Deny`; warnings configured `Warn` are the ones printed,
warnings configured `Allow` are suppressed, and with no `Deny` the result is
`Ok(())`. -/
theorem claim_c6_display_warnings (warnings : List Warning)
    (o : WarningOpts) :
    ((display_warnings warnings o).2.isOk = false ↔
      ∃ w ∈ warnings, o.warn_state w = .Deny) ∧
    (display_warnings warnings o).1 = o.filter warnings .Warn ∧
    (∀ w ∈ warnings, o.warn_state w = .Allow →
      w ∉ (display_warnings warnings o).1 ∧ w ∉ o.filter warnings .Deny) ∧
    ((∀ w ∈ warnings, o.warn_state w ≠ .Deny) →
      (display_warnings warnings o).2 = .ok ()) := by
  have hden : (o.filter warnings .Deny).isEmpty = true ↔
      ¬ ∃ w ∈ warnings, o.warn_state w = .Deny := by
    rw [List.isEmpty_iff]
    constructor
    · intro h hex
      rcases hex with ⟨w, hw, hs⟩
      have : w ∈ o.filter warnings .Deny :=
        (mem_filter_warn_state o warnings .Deny w).mpr ⟨hw, hs⟩
      rw [h] at this
      simp at this
    · intro h
      cases hf : o.filter warnings .Deny with
      | nil => rfl
      | cons a t =>
          exfalso
          apply h
          have : a ∈ o.filter warnings .Deny := by
            rw [hf]; exact List.mem_cons_self a t
          rcases (mem_filter_warn_state o warnings .Deny a).mp this with ⟨h1, h2⟩
          exact ⟨a, h1, h2⟩
  refine ⟨?_, rfl, ?_, ?_⟩
  · by_cases hD : (o.filter warnings .Deny).isEmpty = true
    · simp [display_warnings, hD, Except.isOk, Except.toBool]
      intro w hw hs
      exact hden.mp hD ⟨w, hw, hs⟩
    · simp [display_warnings, hD, Except.isOk, Except.toBool]
      by_contra hex
      apply hD
      apply hden.mpr
      rintro ⟨w, hw, hs⟩
      exact hex ⟨w, hw, hs⟩
  · intro w hw hall
    constructor
    · intro hmem
      rcases (mem_filter_warn_state o warnings .Warn w).mp hmem with ⟨_, h2⟩
      rw [hall] at h2
      cases h2
    · intro hmem
      rcases (mem_filter_warn_state o warnings .Deny w).mp hmem with ⟨_, h2⟩
      rw [hall] at h2
      cases h2
  · intro hnone
    have hD : (o.filter warnings .Deny).isEmpty = true := by
      apply hden.mpr
      rintro ⟨w, hw, hs⟩
      exact hnone w hw hs
    simp [display_warnings, hD]

theorem claim_c6_witness :
    (display_warnings [Warning.MatchOnlyVars "m"] WarningOpts.allow_all).2 =
      .ok () :=
  (claim_c6_display_warnings [Warning.MatchOnlyVars "m"]
    WarningOpts.allow_all).2.2.2 (by decide)

/-- C1: `check_book book` returns `Ok(())` iff
`compile_book book CompileOpts::light()` returns `Ok`, for every pass
environment; it merely discards the compiled result (and its warnings), and
propagates errors and panics unchanged. -/
theorem claim_c1_check_is_light_compile (E : External) (p : Pick)
    (b : Book) :
    (check_book E p b = pok () ↔
      ∃ r, compile_book E p b CompileOpts.light = pok r) ∧
    (∀ i, check_book E p b = some (.error i) ↔
      compile_book E p b CompileOpts.light = some (.error i)) ∧
    (check_book E p b = none ↔
      compile_book E p b CompileOpts.light = none) := by
  unfold check_book
  cases h : compile_book E p b CompileOpts.light with
  | none => simp [pbind, pok]
  | some r =>
      cases r with
      | error e => simp [pbind, pok]
      | ok a =>
          simp [pbind, pok]

theorem ebindI_ok (a : α) (f : α → Except Info β) :
    ebindI (.ok a) f = f a := rfl

theorem ebindI_assoc (x : Except Info α) (f : α → Except Info β)
    (g : β → Except Info γ) :
    ebindI (ebindI x f) g = ebindI x (fun a => ebindI (f a) g) := by
  cases x <;> rfl

/-- C2 (amended): `desugar_book` equals the reference pipeline whose
optimizer order places pruning after supercombinator detachment, ref-to-ref
collapse and main simplification but before inlining and merging. -/
theorem claim_c2_amended_prune_before_inline_merge (E : External) (p : Pick)
    (b : Book) (o : CompileOpts) :
    desugar_book E p b o = desugar_book_with E p b o sourceOptOrder := by
  unfold desugar_book desugar_book_with
  cases hf : desugar_front E p b o with
  | none => rfl
  | some r =>
      cases r with
      | error e => rfl
      | ok c =>
          simp only [pbind, plift]
          simp only [sourceOptOrder, applyOptPasses, applyOptPass,
            ebindI_assoc, ebindI_ok]

/-- C2 (counterexample): over a concrete pass environment whose inliner and
pruner do not commute, `desugar_book` differs from the reference pipeline in
which pruning is the last optimizer pass — the source prunes before
inlining and merging, not after. -/
theorem claim_c2_counterexample :
    desugar_book cexC2External pickHead {} cexC2Opts ≠
      desugar_book_with cexC2External pickHead {} cexC2Opts
        pruneLastOptOrder := by
  intro h
  exact absurd (congrArg desugarDefsLen h) (by decide)

/-- C5: selecting lazy mode clears exactly the `supercombinators` and
`pre_reduce` options (every other option unchanged), and under the resulting
options `desugar_book` is independent of the supercombinator-detachment
pass — it is never applied, so the desugared book contains no detached
definitions. -/
theorem claim_c5_lazy_mode (o : CompileOpts) :
    (o.lazy_mode).supercombinators = false ∧
    (o.lazy_mode).pre_reduce = false ∧
    (o.lazy_mode).adt_encoding = o.adt_encoding ∧
    (o.lazy_mode).eta = o.eta ∧
    (o.lazy_mode).ref_to_ref = o.ref_to_ref ∧
    (o.lazy_mode).prune = o.prune ∧
    (o.lazy_mode).simplify_main = o.simplify_main ∧
    (o.lazy_mode).pre_reduce_refs = o.pre_reduce_refs ∧
    (o.lazy_mode).merge = o.merge ∧
    (o.lazy_mode).inline = o.inline ∧
    ∀ (E : External) (d1 d2 : Book → Book) (p : Pick) (b : Book),
      desugar_book { E with detach_supercombinators := d1 } p b o.lazy_mode =
        desugar_book { E with detach_supercombinators := d2 } p b
          o.lazy_mode := by
  refine ⟨rfl, rfl, rfl, rfl, rfl, rfl, rfl, rfl, rfl, rfl, ?_⟩
  intro E d1 d2 p b
  rfl

/-- C9: `run_compiled` with a debug hook present and `lazy_mode` set panics
for every compiled book, fuel and memory size: the debug path calls the
eager-only `expand` helper on a lazy runtime net, reaching its
`unreachable!()` arm. -/
theorem claim_c9_debug_lazy_panics (E : External) (fuel : Nat)
    (book : E.CoreBook) (mem_size : Nat) (ro : RunOpts) (entry : Name)
    (hdbg : ro.debug = true) (hlazy : ro.lazy_mode = true) :
    run_compiled E fuel book mem_size ro ro.debug_hook_present entry =
      none := by
  simp [run_compiled, RunOpts.debug_hook_present, hdbg, hlazy, RtNet.init,
    expand]

theorem claim_c9_witness :
    run_compiled trivExternal 0 () 0 { debug := true, lazy_mode := true }
      (RunOpts.debug_hook_present { debug := true, lazy_mode := true })
      "main" = none :=
  claim_c9_debug_lazy_panics trivExternal 0 () 0
    { debug := true, lazy_mode := true } "main" rfl rfl

theorem pattern_declared_iff_unbound_nil (isc : Name → Bool) :
    ∀ pat : Pattern,
      (Pattern.declaredB isc pat = true ↔ Pattern.unbound_pats isc pat = []) := by
  apply Pattern.unbound_pats.induct isc
    (fun pat =>
      (Pattern.declaredB isc pat = true ↔ Pattern.unbound_pats isc pat = []))
    (fun ps =>
      (Pattern.declaredListB isc ps = true ↔
        Pattern.unboundPatsList isc ps = []))
  · intro nam args ih
    by_cases h : isc nam <;>
      simp [Pattern.declaredB, Pattern.unbound_pats, h, ih]
  · intro f s ih1 ih2
    simp [Pattern.declaredB, Pattern.unbound_pats, ih1, ih2]
  · intro els ih
    simp [Pattern.declaredB, Pattern.unbound_pats, ih]
  · intro nam
    simp [Pattern.declaredB, Pattern.unbound_pats]
  · intro num
    simp [Pattern.declaredB, Pattern.unbound_pats]
  · simp [Pattern.declaredListB, Pattern.unboundPatsList]
  · intro q qs ih1 ih2
    simp [Pattern.declaredListB, Pattern.unboundPatsList, ih1, ih2]

theorem check_unbounds_ok_iff (p : Pick) (hp : ValidPick p)
    (isc : Name → Bool) (pat : Pattern) :
    (Pattern.check_unbounds p isc pat = .ok () ↔
      Pattern.declaredB isc pat = true) := by
  rw [pattern_declared_iff_unbound_nil isc pat]
  unfold Pattern.check_unbounds
  cases hpk : p (pat.unbound_pats isc) with
  | none =>
      have h := hp.isSome_iff (pat.unbound_pats isc)
      rw [hpk] at h
      simp at h
      simp [h]
  | some n =>
      have h := hp.isSome_iff (pat.unbound_pats isc)
      rw [hpk] at h
      simp at h
      simp [h]

theorem check_unbounds_shape (p : Pick) (isc : Name → Bool) (pat : Pattern) :
    Pattern.check_unbounds p isc pat = .ok () ∨
      ∃ e, Pattern.check_unbounds p isc pat = .error e := by
  unfold Pattern.check_unbounds
  cases p (pat.unbound_pats isc) with
  | none => exact Or.inl rfl
  | some n => exact Or.inr ⟨⟨n⟩, rfl⟩

theorem pebind_ok_iff (x : Option (Except UnboundCtrErr Unit))
    (f : Unit → Option (Except UnboundCtrErr Unit)) :
    pebind x f = some (.ok ()) ↔
      (x = some (.ok ()) ∧ f () = some (.ok ())) := by
  cases x with
  | none => simp [pebind]
  | some r =>
      cases r with
      | error e => simp [pebind]
      | ok u => cases u; simp [pebind]

theorem pebind_isSome (x : Option (Except UnboundCtrErr Unit))
    (f : Unit → Option (Except UnboundCtrErr Unit))
    (hx : x.isSome = true) (hf : (f ()).isSome = true) :
    (pebind x f).isSome = true := by
  cases x with
  | none => simp at hx
  | some r =>
      cases r with
      | error e => simp [pebind]
      | ok u => cases u; simpa [pebind] using hf

theorem pebind_exAgree (x1 x2 : Option (Except UnboundCtrErr Unit))
    (f1 f2 : Unit → Option (Except UnboundCtrErr Unit))
    (hx : exAgree x1 x2) (hf : exAgree (f1 ()) (f2 ())) :
    exAgree (pebind x1 f1) (pebind x2 f2) := by
  cases x1 with
  | none =>
      cases x2 with
      | none => simpa [pebind] using hx
      | some r2 =>
          exfalso
          cases r2 with
          | error e => simp [exAgree] at hx
          | ok u => simp [exAgree] at hx
  | some r1 =>
      cases x2 with
      | none =>
          exfalso
          cases r1 with
          | error e => simp [exAgree] at hx
          | ok u => simp [exAgree] at hx
      | some r2 =>
          cases r1 with
          | error e1 =>
              cases r2 with
              | error e2 => simp [pebind, exAgree]
              | ok u => simp [exAgree] at hx
          | ok u1 =>
              cases r2 with
              | error e2 => simp [exAgree] at hx
              | ok u2 => cases u1; cases u2; simpa [pebind] using hf

theorem check_unbounds_exAgree (p1 p2 : Pick) (h1 : ValidPick p1)
    (h2 : ValidPick p2) (isc : Name → Bool) (pat : Pattern) :
    exAgree (some (pat.check_unbounds p1 isc))
      (some (pat.check_unbounds p2 isc)) := by
  rcases check_unbounds_shape p1 isc pat with ha | ⟨e1, ha⟩ <;>
    rcases check_unbounds_shape p2 isc pat with hb | ⟨e2, hb⟩
  · rw [ha, hb]; simp [exAgree]
  · exfalso
    rw [check_unbounds_ok_iff p1 h1 isc pat] at ha
    rw [← check_unbounds_ok_iff p2 h2 isc pat] at ha
    rw [ha] at hb
    cases hb
  · exfalso
    rw [check_unbounds_ok_iff p2 h2 isc pat] at hb
    rw [← check_unbounds_ok_iff p1 h1 isc pat] at hb
    rw [hb] at ha
    cases ha
  · rw [ha, hb]; simp [exAgree]

theorem term_check_total_ok_iff (p : Pick) (hp : ValidPick p)
    (isc : Name → Bool) :
    ∀ t : Term, Term.has_lst t = false →
      ((Term.check_unbound_pats p isc t).isSome = true ∧
        (Term.check_unbound_pats p isc t = some (.ok ()) ↔
          Term.patsDeclaredB isc t = true)) := by
  apply Term.has_lst.induct
    (fun t => Term.has_lst t = false →
      ((Term.check_unbound_pats p isc t).isSome = true ∧
        (Term.check_unbound_pats p isc t = some (.ok ()) ↔
          Term.patsDeclaredB isc t = true)))
    (fun arms => Term.armsHaveLst arms = false →
      ((Term.checkArms p isc arms).isSome = true ∧
        (Term.checkArms p isc arms = some (.ok ()) ↔
          Term.armsPatsDeclaredB isc arms = true)))
  · intro els h
    simp [Term.has_lst] at h
  · intro pat val nxt ih1 ih2 h
    simp only [Term.has_lst, Bool.or_eq_false_iff] at h
    obtain ⟨h1, h2⟩ := h
    obtain ⟨s1, i1⟩ := ih1 h1
    obtain ⟨s2, i2⟩ := ih2 h2
    refine ⟨?_, ?_⟩
    · simp only [Term.check_unbound_pats]
      exact pebind_isSome _ _ (by simp) (pebind_isSome _ _ s1 s2)
    · simp only [Term.check_unbound_pats, Term.patsDeclaredB]
      rw [pebind_ok_iff, pebind_ok_iff]
      simp [check_unbounds_ok_iff p hp isc pat, i1, i2, Bool.and_eq_true]
      tauto
  · intro matched arms ih1 ih2 h
    simp only [Term.has_lst, Bool.or_eq_false_iff] at h
    obtain ⟨h1, h2⟩ := h
    obtain ⟨s1, i1⟩ := ih1 h1
    obtain ⟨s2, i2⟩ := ih2 h2
    refine ⟨?_, ?_⟩
    · simp only [Term.check_unbound_pats]
      exact pebind_isSome _ _ s1 s2
    · simp only [Term.check_unbound_pats, Term.patsDeclaredB]
      rw [pebind_ok_iff]
      simp [i1, i2, Bool.and_eq_true]
  · intro tag fn arg ih1 ih2 h
    simp only [Term.has_lst, Bool.or_eq_false_iff] at h
    obtain ⟨h1, h2⟩ := h
    obtain ⟨s1, i1⟩ := ih1 h1
    obtain ⟨s2, i2⟩ := ih2 h2
    refine ⟨?_, ?_⟩
    · simp only [Term.check_unbound_pats]
      exact pebind_isSome _ _ s1 s2
    · simp only [Term.check_unbound_pats, Term.patsDeclaredB]
      rw [pebind_ok_iff]
      simp [i1, i2, Bool.and_eq_true]
  · intro fst snd ih1 ih2 h
    simp only [Term.has_lst, Bool.or_eq_false_iff] at h
    obtain ⟨h1, h2⟩ := h
    obtain ⟨s1, i1⟩ := ih1 h1
    obtain ⟨s2, i2⟩ := ih2 h2
    refine ⟨?_, ?_⟩
    · simp only [Term.check_unbound_pats]
      exact pebind_isSome _ _ s1 s2
    · simp only [Term.check_unbound_pats, Term.patsDeclaredB]
      rw [pebind_ok_iff]
      simp [i1, i2, Bool.and_eq_true]
  · intro tag fst snd val nxt ih1 ih2 h
    simp only [Term.has_lst, Bool.or_eq_false_iff] at h
    obtain ⟨h1, h2⟩ := h
    obtain ⟨s1, i1⟩ := ih1 h1
    obtain ⟨s2, i2⟩ := ih2 h2
    refine ⟨?_, ?_⟩
    · simp only [Term.check_unbound_pats]
      exact pebind_isSome _ _ s1 s2
    · simp only [Term.check_unbound_pats, Term.patsDeclaredB]
      rw [pebind_ok_iff]
      simp [i1, i2, Bool.and_eq_true]
  · intro tag fst snd ih1 ih2 h
    simp only [Term.has_lst, Bool.or_eq_false_iff] at h
    obtain ⟨h1, h2⟩ := h
    obtain ⟨s1, i1⟩ := ih1 h1
    obtain ⟨s2, i2⟩ := ih2 h2
    refine ⟨?_, ?_⟩
    · simp only [Term.check_unbound_pats]
      exact pebind_isSome _ _ s1 s2
    · simp only [Term.check_unbound_pats, Term.patsDeclaredB]
      rw [pebind_ok_iff]
      simp [i1, i2, Bool.and_eq_true]
  · intro op fst snd ih1 ih2 h
    simp only [Term.has_lst, Bool.or_eq_false_iff] at h
    obtain ⟨h1, h2⟩ := h
    obtain ⟨s1, i1⟩ := ih1 h1
    obtain ⟨s2, i2⟩ := ih2 h2
    refine ⟨?_, ?_⟩
    · simp only [Term.check_unbound_pats]
      exact pebind_isSome _ _ s1 s2
    · simp only [Term.check_unbound_pats, Term.patsDeclaredB]
      rw [pebind_ok_iff]
      simp [i1, i2, Bool.and_eq_true]
  · intro nam bod ih h
    simp only [Term.has_lst] at h
    obtain ⟨s1, i1⟩ := ih h
    refine ⟨?_, ?_⟩
    · simpa only [Term.check_unbound_pats] using s1
    · simpa only [Term.check_unbound_pats, Term.patsDeclaredB] using i1
  · intro nam bod ih h
    simp only [Term.has_lst] at h
    obtain ⟨s1, i1⟩ := ih h
    refine ⟨?_, ?_⟩
    · simpa only [Term.check_unbound_pats] using s1
    · simpa only [Term.check_unbound_pats, Term.patsDeclaredB] using i1
  · intro nam h
    exact ⟨by simp [Term.check_unbound_pats],
      by simp [Term.check_unbound_pats, Term.patsDeclaredB]⟩
  · intro nam h
    exact ⟨by simp [Term.check_unbound_pats],
      by simp [Term.check_unbound_pats, Term.patsDeclaredB]⟩
  · intro nam h
    exact ⟨by simp [Term.check_unbound_pats],
      by simp [Term.check_unbound_pats, Term.patsDeclaredB]⟩
  · intro num h
    exact ⟨by simp [Term.check_unbound_pats],
      by simp [Term.check_unbound_pats, Term.patsDeclaredB]⟩
  · intro val h
    exact ⟨by simp [Term.check_unbound_pats],
      by simp [Term.check_unbound_pats, Term.patsDeclaredB]⟩
  · intro h
    exact ⟨by simp [Term.check_unbound_pats],
      by simp [Term.check_unbound_pats, Term.patsDeclaredB]⟩
  · intro h
    exact ⟨by simp [Term.check_unbound_pats],
      by simp [Term.check_unbound_pats, Term.patsDeclaredB]⟩
  · intro h
    exact ⟨by simp [Term.checkArms],
      by simp [Term.checkArms, Term.armsPatsDeclaredB]⟩
  · intro pat body rest ih1 ih2 h
    simp only [Term.armsHaveLst, Bool.or_eq_false_iff] at h
    obtain ⟨h1, h2⟩ := h
    obtain ⟨s1, i1⟩ := ih1 h1
    obtain ⟨s2, i2⟩ := ih2 h2
    refine ⟨?_, ?_⟩
    · simp only [Term.checkArms]
      exact pebind_isSome _ _ (by simp) (pebind_isSome _ _ s1 s2)
    · simp only [Term.checkArms, Term.armsPatsDeclaredB]
      rw [pebind_ok_iff, pebind_ok_iff]
      simp [check_unbounds_ok_iff p hp isc pat, i1, i2, Bool.and_eq_true]
      tauto

theorem term_check_panics (p : Pick) (hp : ValidPick p) (isc : Name → Bool) :
    ∀ t : Term, Term.has_lst t = true → Term.patsDeclaredB isc t = true →
      Term.check_unbound_pats p isc t = none := by
  apply Term.has_lst.induct
    (fun t => Term.has_lst t = true → Term.patsDeclaredB isc t = true →
      Term.check_unbound_pats p isc t = none)
    (fun arms => Term.armsHaveLst arms = true →
      Term.armsPatsDeclaredB isc arms = true →
      Term.checkArms p isc arms = none)
  · intro els h hd
    simp [Term.check_unbound_pats]
  · intro pat val nxt ih1 ih2 h hd
    simp only [Term.patsDeclaredB, Bool.and_eq_true] at hd
    obtain ⟨⟨hdp, hdv⟩, hdn⟩ := hd
    have hpat : pat.check_unbounds p isc = .ok () :=
      (check_unbounds_ok_iff p hp isc pat).mpr hdp
    simp only [Term.check_unbound_pats, hpat, pebind]
    simp only [Term.has_lst, Bool.or_eq_true] at h
    cases hvl : val.has_lst with
    | true => rw [ih1 hvl hdv]
    | false =>
        have hok := (term_check_total_ok_iff p hp isc val hvl).2.mpr hdv
        rw [hok]
        rcases h with hv | hn
        · rw [hvl] at hv; cases hv
        · exact ih2 hn hdn
  · intro matched arms ih1 ih2 h hd
    simp only [Term.patsDeclaredB, Bool.and_eq_true] at hd
    obtain ⟨hdm, hda⟩ := hd
    simp only [Term.check_unbound_pats]
    simp only [Term.has_lst, Bool.or_eq_true] at h
    cases hml : matched.has_lst with
    | true => rw [ih1 hml hdm]; rfl
    | false =>
        have hok := (term_check_total_ok_iff p hp isc matched hml).2.mpr hdm
        rw [hok]
        rcases h with hm | ha
        · rw [hml] at hm; cases hm
        · simpa [pebind] using ih2 ha hda
  · intro tag fn arg ih1 ih2 h hd
    simp only [Term.patsDeclaredB, Bool.and_eq_true] at hd
    obtain ⟨hd1, hd2⟩ := hd
    simp only [Term.check_unbound_pats]
    simp only [Term.has_lst, Bool.or_eq_true] at h
    cases hl1 : fn.has_lst with
    | true => rw [ih1 hl1 hd1]; rfl
    | false =>
        have hok := (term_check_total_ok_iff p hp isc fn hl1).2.mpr hd1
        rw [hok]
        rcases h with hx | hx
        · rw [hl1] at hx; cases hx
        · simpa [pebind] using ih2 hx hd2
  · intro fst snd ih1 ih2 h hd
    simp only [Term.patsDeclaredB, Bool.and_eq_true] at hd
    obtain ⟨hd1, hd2⟩ := hd
    simp only [Term.check_unbound_pats]
    simp only [Term.has_lst, Bool.or_eq_true] at h
    cases hl1 : fst.has_lst with
    | true => rw [ih1 hl1 hd1]; rfl
    | false =>
        have hok := (term_check_total_ok_iff p hp isc fst hl1).2.mpr hd1
        rw [hok]
        rcases h with hx | hx
        · rw [hl1] at hx; cases hx
        · simpa [pebind] using ih2 hx hd2
  · intro tag fst snd val nxt ih1 ih2 h hd
    simp only [Term.patsDeclaredB, Bool.and_eq_true] at hd
    obtain ⟨hd1, hd2⟩ := hd
    simp only [Term.check_unbound_pats]
    simp only [Term.has_lst, Bool.or_eq_true] at h
    cases hl1 : val.has_lst with
    | true => rw [ih1 hl1 hd1]; rfl
    | false =>
        have hok := (term_check_total_ok_iff p hp isc val hl1).2.mpr hd1
        rw [hok]
        rcases h with hx | hx
        · rw [hl1] at hx; cases hx
        · simpa [pebind] using ih2 hx hd2
  · intro tag fst snd ih1 ih2 h hd
    simp only [Term.patsDeclaredB, Bool.and_eq_true] at hd
    obtain ⟨hd1, hd2⟩ := hd
    simp only [Term.check_unbound_pats]
    simp only [Term.has_lst, Bool.or_eq_true] at h
    cases hl1 : fst.has_lst with
    | true => rw [ih1 hl1 hd1]; rfl
    | false =>
        have hok := (term_check_total_ok_iff p hp isc fst hl1).2.mpr hd1
        rw [hok]
        rcases h with hx | hx
        · rw [hl1] at hx; cases hx
        · simpa [pebind] using ih2 hx hd2
  · intro op fst snd ih1 ih2 h hd
    simp only [Term.patsDeclaredB, Bool.and_eq_true] at hd
    obtain ⟨hd1, hd2⟩ := hd
    simp only [Term.check_unbound_pats]
    simp only [Term.has_lst, Bool.or_eq_true] at h
    cases hl1 : fst.has_lst with
    | true => rw [ih1 hl1 hd1]; rfl
    | false =>
        have hok := (term_check_total_ok_iff p hp isc fst hl1).2.mpr hd1
        rw [hok]
        rcases h with hx | hx
        · rw [hl1] at hx; cases hx
        · simpa [pebind] using ih2 hx hd2
  · intro nam bod ih h hd
    simp only [Term.has_lst] at h
    simp only [Term.patsDeclaredB] at hd
    simpa only [Term.check_unbound_pats] using ih h hd
  · intro nam bod ih h hd
    simp only [Term.has_lst] at h
    simp only [Term.patsDeclaredB] at hd
    simpa only [Term.check_unbound_pats] using ih h hd
  · intro nam h hd
    simp [Term.has_lst] at h
  · intro nam h hd
    simp [Term.has_lst] at h
  · intro nam h hd
    simp [Term.has_lst] at h
  · intro num h hd
    simp [Term.has_lst] at h
  · intro val h hd
    simp [Term.has_lst] at h
  · intro h hd
    simp [Term.has_lst] at h
  · intro h hd
    simp [Term.has_lst] at h
  · intro h hd
    simp [Term.armsHaveLst] at h
  · intro pat body rest ih1 ih2 h hd
    simp only [Term.armsPatsDeclaredB, Bool.and_eq_true] at hd
    obtain ⟨⟨hdp, hdb⟩, hdr⟩ := hd
    have hpat : pat.check_unbounds p isc = .ok () :=
      (check_unbounds_ok_iff p hp isc pat).mpr hdp
    simp only [Term.checkArms, hpat, pebind]
    simp only [Term.armsHaveLst, Bool.or_eq_true] at h
    cases hbl : body.has_lst with
    | true => rw [ih1 hbl hdb]
    | false =>
        have hok := (term_check_total_ok_iff p hp isc body hbl).2.mpr hdb
        rw [hok]
        rcases h with hb | hr
        · rw [hbl] at hb; cases hb
        · exact ih2 hr hdr

theorem term_check_exAgree (p1 p2 : Pick) (h1 : ValidPick p1)
    (h2 : ValidPick p2) (isc : Name → Bool) :
    ∀ t : Term,
      exAgree (Term.check_unbound_pats p1 isc t)
        (Term.check_unbound_pats p2 isc t) := by
  apply Term.has_lst.induct
    (fun t => exAgree (Term.check_unbound_pats p1 isc t)
      (Term.check_unbound_pats p2 isc t))
    (fun arms => exAgree (Term.checkArms p1 isc arms)
      (Term.checkArms p2 isc arms))
  · intro els
    simp [Term.check_unbound_pats, exAgree]
  · intro pat val nxt ih1 ih2
    simp only [Term.check_unbound_pats]
    exact pebind_exAgree _ _ _ _
      (check_unbounds_exAgree p1 p2 h1 h2 isc pat)
      (pebind_exAgree _ _ _ _ ih1 ih2)
  · intro matched arms ih1 ih2
    simp only [Term.check_unbound_pats]
    exact pebind_exAgree _ _ _ _ ih1 ih2
  · intro tag fn arg ih1 ih2
    simp only [Term.check_unbound_pats]
    exact pebind_exAgree _ _ _ _ ih1 ih2
  · intro fst snd ih1 ih2
    simp only [Term.check_unbound_pats]
    exact pebind_exAgree _ _ _ _ ih1 ih2
  · intro tag fst snd val nxt ih1 ih2
    simp only [Term.check_unbound_pats]
    exact pebind_exAgree _ _ _ _ ih1 ih2
  · intro tag fst snd ih1 ih2
    simp only [Term.check_unbound_pats]
    exact pebind_exAgree _ _ _ _ ih1 ih2
  · intro op fst snd ih1 ih2
    simp only [Term.check_unbound_pats]
    exact pebind_exAgree _ _ _ _ ih1 ih2
  · intro nam bod ih
    simpa only [Term.check_unbound_pats] using ih
  · intro nam bod ih
    simpa only [Term.check_unbound_pats] using ih
  · intro nam
    simp [Term.check_unbound_pats, exAgree]
  · intro nam
    simp [Term.check_unbound_pats, exAgree]
  · intro nam
    simp [Term.check_unbound_pats, exAgree]
  · intro num
    simp [Term.check_unbound_pats, exAgree]
  · intro val
    simp [Term.check_unbound_pats, exAgree]
  · simp [Term.check_unbound_pats, exAgree]
  · simp [Term.check_unbound_pats, exAgree]
  · simp [Term.checkArms, exAgree]
  · intro pat body rest ih1 ih2
    simp only [Term.checkArms]
    exact pebind_exAgree _ _ _ _
      (check_unbounds_exAgree p1 p2 h1 h2 isc pat)
      (pebind_exAgree _ _ _ _ ih1 ih2)

theorem take_err_check (p : Pick) (hp : ValidPick p) (isc : Name → Bool)
    (dn : Option Name) (i : Info) (pat : Pattern) :
    (Pattern.declaredB isc pat = true →
      i.take_err dn (pat.check_unbounds p isc) = i) ∧
    (Pattern.declaredB isc pat = false →
      ∃ msg, i.take_err dn (pat.check_unbounds p isc) =
        { i with errs := i.errs ++ [(dn, msg)] }) := by
  rcases check_unbounds_shape p isc pat with hok | ⟨e, he⟩
  · constructor
    · intro _
      rw [hok]
      rfl
    · intro hf
      rw [(check_unbounds_ok_iff p hp isc pat).mp hok] at hf
      cases hf
  · constructor
    · intro ht
      have := (check_unbounds_ok_iff p hp isc pat).mpr ht
      rw [this] at he
      cases he
    · intro _
      rw [he]
      exact ⟨e.msg, rfl⟩

theorem patsGo_spec (p : Pick) (hp : ValidPick p) (isc : Name → Bool)
    (dn : Name) :
    ∀ (pats : List Pattern) (i : Info),
      ∃ e, patsGo p isc dn i pats = { i with errs := i.errs ++ e } ∧
        e.length =
          pats.countP (fun pat => !(Pattern.declaredB isc pat)) := by
  intro pats
  induction pats with
  | nil =>
      intro i
      exact ⟨[], by simp [patsGo], by simp⟩
  | cons q qs ih =>
      intro i
      by_cases hq : Pattern.declaredB isc q = true
      · have h1 := (take_err_check p hp isc (some dn) i q).1 hq
        obtain ⟨e, he, hl⟩ := ih i
        refine ⟨e, ?_, ?_⟩
        · simp only [patsGo, List.foldl_cons] at *
          rw [h1]
          exact he
        · rw [hl, List.countP_cons]
          simp [hq]
      · have hq2 : Pattern.declaredB isc q = false := by
          cases h : Pattern.declaredB isc q
          · rfl
          · exact absurd h hq
        obtain ⟨msg, h1⟩ := (take_err_check p hp isc (some dn) i q).2 hq2
        obtain ⟨e, he, hl⟩ :=
          ih { i with errs := i.errs ++ [(some dn, msg)] }
        refine ⟨(some dn, msg) :: e, ?_, ?_⟩
        · simp only [patsGo, List.foldl_cons] at *
          rw [h1, he]
          simp
        · rw [List.countP_cons]
          simp [hq2, hl]

theorem ruleGo_spec (p : Pick) (hp : ValidPick p) (isc : Name → Bool)
    (dn : Name) (i : Info) (r : Rule) (hl : r.body.has_lst = false) :
    ∃ e, ruleGo p isc dn i r = some { i with errs := i.errs ++ e } ∧
      e.length = Rule.expectedDiags isc r := by
  obtain ⟨e1, hpg, hl1⟩ := patsGo_spec p hp isc dn r.pats i
  have hs := term_check_total_ok_iff p hp isc r.body hl
  obtain ⟨res, hres⟩ := Option.isSome_iff_exists.mp hs.1
  cases res with
  | ok u =>
      cases u
      have hpd : Term.patsDeclaredB isc r.body = true := hs.2.mp hres
      refine ⟨e1, ?_, ?_⟩
      · simp only [ruleGo]
        rw [hres]
        simp only [Info.take_err]
        rw [hpg]
      · simp [Rule.expectedDiags, hpd, hl1]
  | error e0 =>
      have hpd : Term.patsDeclaredB isc r.body = false := by
        cases hb : Term.patsDeclaredB isc r.body
        · rfl
        · exfalso
          have hok := hs.2.mpr hb
          rw [hok] at hres
          cases hres
      refine ⟨e1 ++ [(some dn, e0.msg)], ?_, ?_⟩
      · simp only [ruleGo]
        rw [hres]
        simp only [Info.take_err]
        rw [hpg]
        simp
      · simp [Rule.expectedDiags, hpd, hl1]

theorem rulesGo_spec (p : Pick) (hp : ValidPick p) (isc : Name → Bool)
    (dn : Name) :
    ∀ (rs : List Rule) (i : Info),
      rs.all (fun r => !r.body.has_lst) = true →
      ∃ e, rulesGo p isc dn rs i = some { i with errs := i.errs ++ e } ∧
        e.length = (rs.map (Rule.expectedDiags isc)).sum := by
  intro rs
  induction rs with
  | nil =>
      intro i h
      exact ⟨[], by simp [rulesGo], by simp⟩
  | cons r rest ih =>
      intro i h
      simp only [List.all_cons, Bool.and_eq_true] at h
      obtain ⟨h1, h2⟩ := h
      have hl : r.body.has_lst = false := by simpa using h1
      obtain ⟨e1, hr, hl1⟩ := ruleGo_spec p hp isc dn i r hl
      obtain ⟨e2, hrs, hl2⟩ := ih { i with errs := i.errs ++ e1 } h2
      refine ⟨e1 ++ e2, ?_, ?_⟩
      · simp only [rulesGo]
        rw [hr]
        simp [hrs, List.append_assoc]
      · simp [hl1, hl2]

theorem defsGo_spec (p : Pick) (hp : ValidPick p) (isc : Name → Bool) :
    ∀ (ds : List (Name × Definition)) (i : Info),
      ds.all (fun kv => kv.2.rules.all (fun r => !r.body.has_lst)) = true →
      ∃ e, defsGo p isc ds i = some { i with errs := i.errs ++ e } ∧
        e.length = (ds.map (fun kv =>
          (kv.2.rules.map (Rule.expectedDiags isc)).sum)).sum := by
  intro ds
  induction ds with
  | nil =>
      intro i h
      exact ⟨[], by simp [defsGo], by simp⟩
  | cons d rest ih =>
      intro i h
      simp only [List.all_cons, Bool.and_eq_true] at h
      obtain ⟨h1, h2⟩ := h
      obtain ⟨e1, hr, hl1⟩ := rulesGo_spec p hp isc d.1 d.2.rules i h1
      obtain ⟨e2, hrs, hl2⟩ := ih { i with errs := i.errs ++ e1 } h2
      refine ⟨e1 ++ e2, ?_, ?_⟩
      · cases d with
        | mk dn dd =>
            simp only [defsGo]
            rw [hr]
            simp [hrs, List.append_assoc]
      · simp [hl1, hl2]

theorem book_declared_iff_expected_zero (b : Book) :
    b.patsDeclaredB = true ↔ b.expectedDiags = 0 := by
  unfold Book.patsDeclaredB Book.expectedDiags
  rw [List.all_eq_true, List.sum_eq_zero_iff]
  constructor
  · intro h x hx
    rw [List.mem_map] at hx
    obtain ⟨kv, hkv, rfl⟩ := hx
    rw [List.sum_eq_zero_iff]
    intro y hy
    rw [List.mem_map] at hy
    obtain ⟨r, hr, rfl⟩ := hy
    have hk := h kv hkv
    rw [List.all_eq_true] at hk
    have hr2 := hk r hr
    simp only [Bool.and_eq_true] at hr2
    obtain ⟨hpx, hb⟩ := hr2
    unfold Rule.expectedDiags
    rw [hb]
    simp only [if_true, Nat.add_zero]
    rw [List.countP_eq_zero]
    intro pat hpat
    rw [List.all_eq_true] at hpx
    simp [hpx pat hpat]
  · intro h kv hkv
    rw [List.all_eq_true]
    intro r hr
    have hx := h _ (List.mem_map_of_mem _ hkv)
    rw [List.sum_eq_zero_iff] at hx
    have hy := hx _ (List.mem_map_of_mem _ hr)
    unfold Rule.expectedDiags at hy
    have hb : r.body.patsDeclaredB b.is_ctr = true := by
      cases hbb : r.body.patsDeclaredB b.is_ctr
      · rw [hbb] at hy
        simp at hy
      · rfl
    have hc : (r.pats.countP fun pat => !Pattern.declaredB b.is_ctr pat)
        = 0 := by
      rw [hb] at hy
      simpa using hy
    rw [List.countP_eq_zero] at hc
    simp only [Bool.and_eq_true]
    refine ⟨?_, hb⟩
    rw [List.all_eq_true]
    intro pat hpat
    have := hc pat hpat
    simpa using this

theorem ctx_check_run (p : Pick) (hp : ValidPick p) (b : Book)
    (hl : b.noLst = true) :
    ∃ e : List (Option Name × String),
      e.length = b.expectedDiags ∧
      ((e = [] ∧ Ctx.check_unbound_pats p (Ctx.new b) =
          some (.ok ⟨b, ⟨[], 0, []⟩⟩)) ∨
       (e ≠ [] ∧ Ctx.check_unbound_pats p (Ctx.new b) =
          some (.error ⟨e, 0, []⟩))) := by
  have hds : b.defs.all
      (fun kv => kv.2.rules.all (fun r => !r.body.has_lst)) = true := hl
  obtain ⟨e, hd, hlen⟩ := defsGo_spec p hp b.is_ctr b.defs
    { errs := [], passStart := 0, warns := [] } hds
  have hexp : e.length = b.expectedDiags := by
    unfold Book.expectedDiags
    exact hlen
  have hck : Ctx.check_unbound_pats p (Ctx.new b) =
      (match Info.fatal ⟨[] ++ e, 0, []⟩ with
       | .error er => some (.error er)
       | .ok _ => some (.ok ⟨b, ⟨[] ++ e, 0, []⟩⟩)) := by
    show (match defsGo p b.is_ctr b.defs
        { errs := [], passStart := 0, warns := [] } with
      | none => none
      | some i =>
          match i.fatal with
          | Except.error er => some (Except.error er)
          | Except.ok _ =>
              some (Except.ok ⟨b, i⟩) :
        Option (Except Info Ctx)) = _
    rw [hd]
  rw [List.nil_append] at hck
  refine ⟨e, hexp, ?_⟩
  cases e with
  | nil =>
      left
      refine ⟨rfl, ?_⟩
      rw [hck]
      simp [Info.fatal]
  | cons x xs =>
      right
      refine ⟨by simp, ?_⟩
      rw [hck]
      simp [Info.fatal]

/-- C4 (amended): for every book whose rule bodies contain no `Term::Lst`
node (the pipeline establishes this before the pass runs; on a list literal
the checker panics instead of returning), `Ctx::check_unbound_pats` returns
`Ok(())` iff every constructor name appearing in a rule pattern or in a
`let`/`match` pattern inside a rule body is a key of the constructor map;
otherwise it returns `Err` with a non-empty diagnostic batch. -/
theorem claim_c4_amended (p : Pick) (hp : ValidPick p) (b : Book)
    (hl : b.noLst = true) :
    ((∃ c, Ctx.check_unbound_pats p (Ctx.new b) = some (.ok c)) ↔
      b.patsDeclaredB = true) ∧
    (b.patsDeclaredB = false →
      ∃ i, Ctx.check_unbound_pats p (Ctx.new b) = some (.error i) ∧
        i.errs ≠ []) := by
  obtain ⟨e, hlen, hok | herr⟩ := ctx_check_run p hp b hl
  · obtain ⟨he, hck⟩ := hok
    constructor
    · rw [hck]
      constructor
      · intro _
        rw [book_declared_iff_expected_zero]
        rw [← hlen, he]
        rfl
      · intro _
        exact ⟨_, rfl⟩
    · intro hf
      have hdecl : b.patsDeclaredB = true := by
        rw [book_declared_iff_expected_zero, ← hlen, he]
        rfl
      rw [hdecl] at hf
      cases hf
  · obtain ⟨he, hck⟩ := herr
    constructor
    · rw [hck]
      constructor
      · rintro ⟨c, hc⟩
        cases hc
      · intro hd
        rw [book_declared_iff_expected_zero, ← hlen] at hd
        rw [List.length_eq_zero] at hd
        exact absurd hd he
    · intro _
      exact ⟨_, hck, he⟩

theorem claim_c4_witness :
    ((∃ c, Ctx.check_unbound_pats pickHead (Ctx.new unboundBook) =
        some (.ok c)) ↔ unboundBook.patsDeclaredB = true) ∧
    (unboundBook.patsDeclaredB = false →
      ∃ i, Ctx.check_unbound_pats pickHead (Ctx.new unboundBook) =
        some (.error i) ∧ i.errs ≠ []) :=
  claim_c4_amended pickHead validPick_pickHead unboundBook (by decide)

/-- C4 (counterexample): on a book whose only rule body is a bare list
literal every constructor name is (vacuously) declared, yet the checker
panics at the `Term::Lst` arm instead of returning `Ok(())` — the claimed
iff does not hold as stated on all books. -/
theorem claim_c4_counterexample :
    lstBook.patsDeclaredB = true ∧
    (Ctx.check_unbound_pats pickHead (Ctx.new lstBook)).isSome = false := by
  decide

/-- C3 (amended): on books whose rule bodies hold no list literals, the pass
accumulates across all rules and definitions and reports everything in one
batch: the batch holds exactly one diagnostic per rule pattern containing at
least one undeclared constructor plus one per rule body containing one — not
one per undeclared occurrence (several distinct undeclared constructors in
one pattern yield a single diagnostic, and a rule body stops at its first). -/
theorem claim_c3_amended (p : Pick) (hp : ValidPick p) (b : Book)
    (hl : b.noLst = true) :
    (Ctx.check_unbound_pats p (Ctx.new b)).isSome = true ∧
    diagCount (Ctx.check_unbound_pats p (Ctx.new b)) = b.expectedDiags := by
  obtain ⟨e, hlen, hok | herr⟩ := ctx_check_run p hp b hl
  · obtain ⟨he, hck⟩ := hok
    rw [hck]
    refine ⟨rfl, ?_⟩
    rw [← hlen, he]
    simp [diagCount]
  · obtain ⟨he, hck⟩ := herr
    rw [hck]
    refine ⟨rfl, ?_⟩
    rw [← hlen]
    simp [diagCount]

theorem claim_c3_witness :
    (Ctx.check_unbound_pats pickHead (Ctx.new unboundBook)).isSome = true ∧
    diagCount (Ctx.check_unbound_pats pickHead (Ctx.new unboundBook)) =
      unboundBook.expectedDiags :=
  claim_c3_amended pickHead validPick_pickHead unboundBook (by decide)

/-- C3 (counterexample): one rule pattern holding two distinct occurrences
of undeclared constructors produces a single diagnostic, not one per
occurrence. -/
theorem claim_c3_counterexample :
    diagCount (Ctx.check_unbound_pats pickHead (Ctx.new unboundBook)) = 1 ∧
    unboundBook.undeclaredOccs = 2 ∧
    diagCount (Ctx.check_unbound_pats pickHead (Ctx.new unboundBook)) ≠
      unboundBook.undeclaredOccs := by
  decide

/-- C10 (amended): `Term::check_unbound_pats` panics via the unreachable
`Term::Lst` arm on every term that contains a list literal, unless an
unbound-constructor error in a pattern checked earlier aborts the traversal
first (in particular it panics whenever every reachable pattern is
declared); on terms without list literals the branch is never reached and
the function returns. -/
theorem claim_c10_amended (p : Pick) (hp : ValidPick p) (isc : Name → Bool)
    (t : Term) :
    (Term.has_lst t = true → Term.patsDeclaredB isc t = true →
      Term.check_unbound_pats p isc t = none) ∧
    (Term.has_lst t = false →
      (Term.check_unbound_pats p isc t).isSome = true) :=
  ⟨term_check_panics p hp isc t,
   fun h => (term_check_total_ok_iff p hp isc t h).1⟩

theorem claim_c10_witness :
    Term.check_unbound_pats pickHead (fun _ => false) (Term.Lst []) =
      none ∧
    (Term.check_unbound_pats pickHead (fun _ => false) Term.Era).isSome =
      true :=
  ⟨(claim_c10_amended pickHead validPick_pickHead (fun _ => false)
      (Term.Lst [])).1 rfl rfl,
   (claim_c10_amended pickHead validPick_pickHead (fun _ => false)
      Term.Era).2 rfl⟩

/-- C10 (counterexample): a term containing a `Term::Lst` node need not
panic: an undeclared constructor in a pattern checked earlier aborts the
traversal with an error before the list literal is reached. -/
theorem claim_c10_counterexample :
    Term.has_lst letLstTerm = true ∧
    (Term.check_unbound_pats pickHead (fun _ => false)
      letLstTerm).isSome = true := by
  decide

theorem compileAgree_refl {α : Type} (x : Option (Except Info α)) :
    compileAgree x x := by
  cases x with
  | none => simp [compileAgree]
  | some r =>
      cases r with
      | error e => simp [compileAgree]
      | ok a => simp [compileAgree]

theorem pbind_compileAgree {α β : Type} (x1 x2 : Option (Except Info α))
    (f : α → Option (Except Info β)) (h : compileAgree x1 x2) :
    compileAgree (pbind x1 f) (pbind x2 f) := by
  cases x1 with
  | none =>
      cases x2 with
      | none => simp [pbind, compileAgree]
      | some r2 =>
          cases r2 with
          | error e => simp [compileAgree] at h
          | ok a => simp [compileAgree] at h
  | some r1 =>
      cases x2 with
      | none =>
          cases r1 with
          | error e => simp [compileAgree] at h
          | ok a => simp [compileAgree] at h
      | some r2 =>
          cases r1 with
          | error e1 =>
              cases r2 with
              | error e2 => simp [pbind, compileAgree]
              | ok a2 => simp [compileAgree] at h
          | ok a1 =>
              cases r2 with
              | error e2 => simp [compileAgree] at h
              | ok a2 =>
                  have ha : a1 = a2 := by simpa [compileAgree] using h
                  subst ha
                  simp only [pbind]
                  exact compileAgree_refl _

theorem infoDelta_refl (base : Info) : infoDelta base base base :=
  ⟨[], [], by simp, by simp, rfl⟩

theorem infoDelta_extend (base j1 j2 : Info) (hj : infoDelta base j1 j2)
    (e1 e2 : List (Option Name × String)) (hl : e1.length = e2.length) :
    infoDelta base { j1 with errs := j1.errs ++ e1 }
      { j2 with errs := j2.errs ++ e2 } := by
  obtain ⟨d1, d2, hd1, hd2, hdl⟩ := hj
  refine ⟨d1 ++ e1, d2 ++ e2, ?_, ?_, ?_⟩
  · rw [hd1]
    simp
  · rw [hd2]
    simp
  · simp [hdl, hl]

theorem patsGo_agree (p1 p2 : Pick) (h1 : ValidPick p1) (h2 : ValidPick p2)
    (isc : Name → Bool) (dn : Name) (pats : List Pattern)
    (base j1 j2 : Info) (hj : infoDelta base j1 j2) :
    infoDelta base (patsGo p1 isc dn j1 pats) (patsGo p2 isc dn j2 pats) := by
  obtain ⟨e1, he1, hl1⟩ := patsGo_spec p1 h1 isc dn pats j1
  obtain ⟨e2, he2, hl2⟩ := patsGo_spec p2 h2 isc dn pats j2
  rw [he1, he2]
  exact infoDelta_extend base j1 j2 hj e1 e2 (by rw [hl1, hl2])

theorem ruleGo_agree (p1 p2 : Pick) (h1 : ValidPick p1) (h2 : ValidPick p2)
    (isc : Name → Bool) (dn : Name) (r : Rule) (base j1 j2 : Info)
    (hj : infoDelta base j1 j2) :
    optInfoDelta base (ruleGo p1 isc dn j1 r) (ruleGo p2 isc dn j2 r) := by
  have hpg := patsGo_agree p1 p2 h1 h2 isc dn r.pats base j1 j2 hj
  have hbody := term_check_exAgree p1 p2 h1 h2 isc r.body
  simp only [ruleGo]
  cases hc1 : Term.check_unbound_pats p1 isc r.body with
  | none =>
      cases hc2 : Term.check_unbound_pats p2 isc r.body with
      | none => simp [optInfoDelta]
      | some r2 =>
          rw [hc1, hc2] at hbody
          cases r2 with
          | error e => simp [exAgree] at hbody
          | ok u => simp [exAgree] at hbody
  | some r1 =>
      cases hc2 : Term.check_unbound_pats p2 isc r.body with
      | none =>
          rw [hc1, hc2] at hbody
          cases r1 with
          | error e => simp [exAgree] at hbody
          | ok u => simp [exAgree] at hbody
      | some r2 =>
          rw [hc1, hc2] at hbody
          cases r1 with
          | error e1 =>
              cases r2 with
              | error e2 =>
                  simp only [optInfoDelta, Info.take_err]
                  exact infoDelta_extend base _ _ hpg [_] [_] rfl
              | ok u => simp [exAgree] at hbody
          | ok u1 =>
              cases r2 with
              | error e2 => simp [exAgree] at hbody
              | ok u2 =>
                  cases u1
                  cases u2
                  simpa only [optInfoDelta, Info.take_err] using hpg

theorem rulesGo_agree (p1 p2 : Pick) (h1 : ValidPick p1)
    (h2 : ValidPick p2) (isc : Name → Bool) (dn : Name) :
    ∀ (rs : List Rule) (base j1 j2 : Info), infoDelta base j1 j2 →
      optInfoDelta base (rulesGo p1 isc dn rs j1)
        (rulesGo p2 isc dn rs j2) := by
  intro rs
  induction rs with
  | nil =>
      intro base j1 j2 hj
      simpa [rulesGo, optInfoDelta] using hj
  | cons r rest ih =>
      intro base j1 j2 hj
      have hr := ruleGo_agree p1 p2 h1 h2 isc dn r base j1 j2 hj
      simp only [rulesGo]
      cases hr1 : ruleGo p1 isc dn j1 r with
      | none =>
          cases hr2 : ruleGo p2 isc dn j2 r with
          | none => simp [optInfoDelta]
          | some i2 =>
              rw [hr1, hr2] at hr
              simp [optInfoDelta] at hr
      | some i1 =>
          cases hr2 : ruleGo p2 isc dn j2 r with
          | none =>
              rw [hr1, hr2] at hr
              simp [optInfoDelta] at hr
          | some i2 =>
              rw [hr1, hr2] at hr
              simp only [optInfoDelta] at hr
              exact ih base i1 i2 hr

theorem defsGo_agree (p1 p2 : Pick) (h1 : ValidPick p1)
    (h2 : ValidPick p2) (isc : Name → Bool) :
    ∀ (ds : List (Name × Definition)) (base j1 j2 : Info),
      infoDelta base j1 j2 →
      optInfoDelta base (defsGo p1 isc ds j1) (defsGo p2 isc ds j2) := by
  intro ds
  induction ds with
  | nil =>
      intro base j1 j2 hj
      simpa [defsGo, optInfoDelta] using hj
  | cons d rest ih =>
      intro base j1 j2 hj
      have hr := rulesGo_agree p1 p2 h1 h2 isc d.1 d.2.rules base j1 j2 hj
      cases d with
      | mk dn dd =>
          simp only [defsGo]
          cases hr1 : rulesGo p1 isc dn dd.rules j1 with
          | none =>
              cases hr2 : rulesGo p2 isc dn dd.rules j2 with
              | none => simp [optInfoDelta]
              | some i2 =>
                  rw [hr1, hr2] at hr
                  simp [optInfoDelta] at hr
          | some i1 =>
              cases hr2 : rulesGo p2 isc dn dd.rules j2 with
              | none =>
                  rw [hr1, hr2] at hr
                  simp [optInfoDelta] at hr
              | some i2 =>
                  rw [hr1, hr2] at hr
                  simp only [optInfoDelta] at hr
                  exact ih base i1 i2 hr

theorem ctx_check_agree (p1 p2 : Pick) (h1 : ValidPick p1)
    (h2 : ValidPick p2) (c : Ctx) :
    compileAgree (Ctx.check_unbound_pats p1 c)
      (Ctx.check_unbound_pats p2 c) := by
  have hd := defsGo_agree p1 p2 h1 h2 c.book.is_ctr c.book.defs
    c.info.start_pass c.info.start_pass c.info.start_pass (infoDelta_refl _)
  simp only [Ctx.check_unbound_pats]
  cases hr1 : defsGo p1 c.book.is_ctr c.book.defs c.info.start_pass with
  | none =>
      cases hr2 : defsGo p2 c.book.is_ctr c.book.defs c.info.start_pass with
      | none => simp [compileAgree]
      | some i2 =>
          rw [hr1, hr2] at hd
          simp [optInfoDelta] at hd
  | some i1 =>
      cases hr2 : defsGo p2 c.book.is_ctr c.book.defs c.info.start_pass with
      | none =>
          rw [hr1, hr2] at hd
          simp [optInfoDelta] at hd
      | some i2 =>
          rw [hr1, hr2] at hd
          simp only [optInfoDelta] at hd
          obtain ⟨e1, e2, he1, he2, hlen⟩ := hd
          show compileAgree
            ((match i1.fatal with
             | Except.error er => some (Except.error er)
             | Except.ok _ => some (Except.ok { book := c.book, info := i1 }) :
               Option (Except Info Ctx)))
            ((match i2.fatal with
             | Except.error er => some (Except.error er)
             | Except.ok _ => some (Except.ok { book := c.book, info := i2 }) :
               Option (Except Info Ctx)))
          by_cases hz : e1 = []
          · have hz2 : e2 = [] := by
              rw [← List.length_eq_zero, ← hlen, hz]
              rfl
            subst hz
            subst hz2
            have h12 : i1 = i2 := by rw [he1, he2]
            rw [h12]
            exact compileAgree_refl _
          · have hz2 : e2 ≠ [] := by
              intro h0
              apply hz
              rw [← List.length_eq_zero, hlen, h0]
              rfl
            have hc1 : i1.fatal = .error i1 := by
              rw [he1]
              have hcond : c.info.start_pass.passStart <
                  c.info.start_pass.errs.length + e1.length := by
                have hpos := List.length_pos.mpr hz
                simp only [Info.start_pass]
                omega
              simp [Info.fatal, hcond]
            have hc2 : i2.fatal = .error i2 := by
              rw [he2]
              have hcond : c.info.start_pass.passStart <
                  c.info.start_pass.errs.length + e2.length := by
                have hpos := List.length_pos.mpr hz2
                simp only [Info.start_pass]
                omega
              simp [Info.fatal, hcond]
            rw [hc1, hc2]
            simp [compileAgree]

theorem encode_pm_agree (E : External) (p1 p2 : Pick) (h1 : ValidPick p1)
    (h2 : ValidPick p2) (a : AdtEncoding) (c : Ctx) :
    compileAgree (encode_pattern_matching E p1 a c)
      (encode_pattern_matching E p2 a c) := by
  simp only [encode_pattern_matching]
  cases hca : E.check_arity c with
  | error e => simp [pbind, plift, compileAgree]
  | ok c1 =>
      simp only [pbind, plift]
      exact pbind_compileAgree _ _ _ (ctx_check_agree p1 p2 h1 h2 _)

theorem desugar_front_agree (E : External) (p1 p2 : Pick)
    (h1 : ValidPick p1) (h2 : ValidPick p2) (b : Book) (o : CompileOpts) :
    compileAgree (desugar_front E p1 b o) (desugar_front E p2 b o) := by
  simp only [desugar_front]
  exact pbind_compileAgree _ _ _ (encode_pm_agree E p1 p2 h1 h2 _ _)

theorem desugar_book_agree (E : External) (p1 p2 : Pick)
    (h1 : ValidPick p1) (h2 : ValidPick p2) (b : Book) (o : CompileOpts) :
    compileAgree (desugar_book E p1 b o) (desugar_book E p2 b o) := by
  simp only [desugar_book]
  exact pbind_compileAgree _ _ _ (desugar_front_agree E p1 p2 h1 h2 b o)

/-- C8 (amended): `compile_book` is deterministic up to the unspecified
`HashSet` iteration order that selects which unbound constructor a
diagnostic names: for any two admissible iteration orders the two runs
agree on panic, on failure, and on success — and successful runs produce
identical results, including identical core books, label tables and
generated names.  (Only the payload of a failing diagnostic batch may
differ between runs.) -/
theorem claim_c8_amended (E : External) (p1 p2 : Pick) (h1 : ValidPick p1)
    (h2 : ValidPick p2) (b : Book) (o : CompileOpts) :
    compileAgree (compile_book E p1 b o) (compile_book E p2 b o) := by
  simp only [compile_book]
  exact pbind_compileAgree _ _ _ (desugar_book_agree E p1 p2 h1 h2 b o)

theorem claim_c8_witness :
    compileAgree (compile_book trivExternal pickHead unboundBook {})
      (compile_book trivExternal pickLast unboundBook {}) :=
  claim_c8_amended trivExternal pickHead pickLast validPick_pickHead
    validPick_pickLast unboundBook {}

/-- C8 (counterexample): on a book whose single rule pattern holds two
distinct undeclared constructors, two admissible `HashSet` iteration orders
make `compile_book` return different results — the diagnostic batches name
different constructors — so the results of two invocations are not
identical as claimed. -/
theorem claim_c8_counterexample :
    compile_book trivExternal pickHead unboundBook {} ≠
      compile_book trivExternal pickLast unboundBook {} := by
  intro h
  exact absurd (congrArg compileErrs h) (by decide)
